import Mathlib

/-!
# CameraGrab: command-line parsing and the capture workflow

A shallow embedding of `src/CameraGrab.cpp`.

* The module-level variables `g_list_dev`, `g_extension`, `g_output`, `g_width`,
  `g_height`, `g_device`, `g_focus` become the record `Globals`.
* `parseOpts` is the `while` loop of the source: `loopBody` is one iteration over the
  explicit loop state (`n`, `ret`, the globals), `parseLoop` iterates it while the loop
  condition `(n < argc) && (ret == 0)` holds.
* `main` is run against an environment `Env` that answers the calls made to the device
  enumerator, the capture handle and the image writer; it returns the exit status and the
  trace of the calls it made.

The text written by `parseOpts`, `printUsage` and `printVersion` to standard output is not
part of the model; the `printf` calls of `main` are recorded in the trace.  The blocks under
`#ifdef _DEBUG` and `#if 0` are not compiled and are left out.
-/

namespace CameraGrab

/-! ## C library: `atoi` -/

/-- The `isspace` classification of the "C" locale. -/
def isspace (c : Char) : Bool :=
  c = ' ' || c = '\t' || c = '\n' || c = '\x0b' || c = '\x0c' || c = '\r'

/-- Drop the leading white space of a character sequence. -/
def skipSpaces : List Char → List Char
  | [] => []
  | c :: cs => if isspace c then skipSpaces cs else c :: cs

/-- Value of the longest prefix of decimal digits, accumulated from `acc`. -/
def digitsValue (acc : Nat) : List Char → Nat
  | [] => acc
  | c :: cs =>
    if c.isDigit then digitsValue (acc * 10 + (c.toNat - 48)) cs else acc

/-- Largest value of the C type `int` (32 bits). -/
def INT_MAX : Int := 2147483647

/-- Smallest value of the C type `int` (32 bits). -/
def INT_MIN : Int := -2147483648

/-- The C library function `atoi`: optional white space, an optional sign, then the longest
run of decimal digits; `0` when there is no digit.  A value that does not fit in `int` is
clamped to `INT_MAX` / `INT_MIN`, as the Windows C runtime this program is built for
documents it. -/
def atoi (s : String) : Int :=
  match skipSpaces s.toList with
  | '-' :: cs => max INT_MIN (-(digitsValue 0 cs : Int))
  | '+' :: cs => min INT_MAX (digitsValue 0 cs : Int)
  | cs => min INT_MAX (digitsValue 0 cs : Int)

/-! ## Configuration globals -/

/-- The file's default output name, `DEFAULT_OUTPUT_FILE`. -/
def DEFAULT_OUTPUT_FILE : String := "output"

/-- The file's default extension, `DEFAULT_EXT`. -/
def DEFAULT_EXT : String := ".jpg"

/-- The module-level configuration variables of `CameraGrab.cpp`. -/
structure Globals where
  g_list_dev : Bool
  g_extension : String
  g_output : String
  g_width : Int
  g_height : Int
  g_device : Int
  g_focus : Int
deriving DecidableEq, Repr

/-- The initial values of the globals, as written at their declarations. -/
def defaults : Globals :=
  { g_list_dev := false
    g_extension := ""
    g_output := DEFAULT_OUTPUT_FILE
    g_width := 640
    g_height := 480
    g_device := 0
    g_focus := -1 }

/-! ## `parseOpts` -/

/-- The state of the loop of `parseOpts`: the index `n`, the result `ret`, the globals. -/
structure ParseState where
  n : Nat
  ret : Int
  g : Globals
deriving DecidableEq, Repr

/-- One iteration of the `while` loop of `parseOpts` (the body, `n++` included).
`argv[k]` is `argv.getD k ""`; the body only reads indices below `argc`. -/
def loopBody (argv : List String) (s : ParseState) : ParseState :=
  let argc := argv.length
  let arg := argv.getD s.n ""
  if arg = "/h" ∨ arg = "/help" then
    { n := s.n + 1, ret := 1, g := s.g }
  else if arg = "/v" ∨ arg = "/version" then
    { n := s.n + 1, ret := 1, g := s.g }
  else if arg = "/d" ∨ arg = "/device" then
    if s.n + 1 < argc then
      let g_device : Int := atoi (argv.getD (s.n + 1) "")
      let g : Globals := { s.g with g_device := g_device }
      if g_device < 0 then
        { n := s.n + 2, ret := -1, g := g }
      else
        { n := s.n + 2, ret := s.ret, g := g }
    else
      { n := s.n + 2, ret := -1, g := s.g }
  else if arg = "/o" ∨ arg = "/output" then
    if s.n + 1 < argc then
      { n := s.n + 2, ret := s.ret, g := { s.g with g_output := argv.getD (s.n + 1) "" } }
    else
      { n := s.n + 2, ret := -1, g := s.g }
  else if arg = "/f" ∨ arg = "/focus" then
    if s.n + 1 < argc then
      let g_focus : Int := atoi (argv.getD (s.n + 1) "")
      let g : Globals := { s.g with g_focus := g_focus }
      if g_focus ≠ -1 then
        if g_focus < -1 ∨ g_focus > 255 then
          { n := s.n + 2, ret := -1, g := g }
        else if g_focus.tmod 5 ≠ 0 then
          { n := s.n + 2, ret := -1, g := g }
        else
          { n := s.n + 2, ret := s.ret, g := g }
      else
        { n := s.n + 2, ret := s.ret, g := g }
    else
      { n := s.n + 2, ret := -1, g := s.g }
  else if arg = "/F" ∨ arg = "/format" then
    if s.n + 1 < argc then
      let v := argv.getD (s.n + 1) ""
      if v = "bmp" ∨ v = "BMP" then
        { n := s.n + 2, ret := s.ret, g := { s.g with g_extension := ".bmp" } }
      else if v = "jpg" ∨ v = "JPG" then
        { n := s.n + 2, ret := s.ret, g := { s.g with g_extension := ".jpg" } }
      else if v = "png" ∨ v = "PNG" then
        { n := s.n + 2, ret := s.ret, g := { s.g with g_extension := ".png" } }
      else
        { n := s.n + 2, ret := -1, g := s.g }
    else
      { n := s.n + 2, ret := -1, g := s.g }
  else if arg = "/l" ∨ arg = "/list-device" then
    { n := s.n + 1, ret := s.ret, g := { s.g with g_list_dev := true } }
  else if arg = "/H" ∨ arg = "/height" then
    if s.n + 1 < argc then
      let g_height : Int := atoi (argv.getD (s.n + 1) "")
      let g : Globals := { s.g with g_height := g_height }
      if g_height ≤ 0 then
        { n := s.n + 2, ret := -1, g := g }
      else
        { n := s.n + 2, ret := s.ret, g := g }
    else
      { n := s.n + 2, ret := -1, g := s.g }
  else if arg = "/W" ∨ arg = "/width" then
    if s.n + 1 < argc then
      let g_width : Int := atoi (argv.getD (s.n + 1) "")
      let g : Globals := { s.g with g_width := g_width }
      if g_width ≤ 0 then
        { n := s.n + 2, ret := -1, g := g }
      else
        { n := s.n + 2, ret := s.ret, g := g }
    else
      { n := s.n + 2, ret := -1, g := s.g }
  else
    { n := s.n + 1, ret := -1, g := s.g }

/-- The `while ((n < argc) && (ret == 0))` loop of `parseOpts`, run for at most `fuel`
iterations. -/
def parseLoop (argv : List String) : Nat → ParseState → ParseState
  | 0, s => s
  | fuel + 1, s =>
    if s.n < argv.length ∧ s.ret = 0 then parseLoop argv fuel (loopBody argv s) else s

/-- The function `parseOpts(argc, argv)` run from the globals `g`: the loop starts at
`n = 1`, `ret = 0`; the result is the returned `ret` and the globals it leaves.  Every
iteration advances `n`, so `argc` iterations are more than the loop can make. -/
def parseOpts (argv : List String) (g : Globals) : Int × Globals :=
  let s := parseLoop argv argv.length { n := 1, ret := 0, g := g }
  (s.ret, s.g)

/-! ## `main` and its environment -/

/-- The members of `cv::VideoCaptureProperties` the program uses. -/
inductive CapProp where
  | CAP_PROP_FRAME_WIDTH
  | CAP_PROP_FRAME_HEIGHT
  | CAP_PROP_FOCUS
  | CAP_PROP_AUTOFOCUS
deriving DecidableEq, Repr

/-- The capture backend given to the `cv::VideoCapture` constructor: none in the listing
loop (`CAP_ANY`), `cv::CAP_DSHOW` in the capture path. -/
inductive Backend where
  | CAP_ANY
  | CAP_DSHOW
deriving DecidableEq, Repr

/-- The `struct Device` of `DeviceEnumerator.h`. -/
structure Device where
  id : Int
  devicePath : String
  deviceName : String
deriving DecidableEq, Repr

/-- What the outside world answers to `main`: the map returned by
`DeviceEnumerator::getVideoDevicesMap` (its entries in iteration order), and the results of
the capture handle's `isOpened`, `set`, `get` (after the cast to `int`) and `read`, and of
`cv::imwrite`.  A handle is named by the device index it was constructed with. -/
structure Env where
  getVideoDevicesMap : List (Int × Device)
  isOpened : Int → Backend → Bool
  set : Int → CapProp → Int → Bool
  get : Int → CapProp → Int
  read : Int → Bool
  imwrite : String → Bool

/-- An argument of a `printf` call. -/
inductive Arg where
  | int (i : Int)
  | str (s : String)
deriving DecidableEq, Repr

/-- The observable calls of `main`, each with the result it got. -/
inductive Event where
  | printf (fmt : String) (args : List Arg)
  | enumerate
  | newCapture (index : Int) (api : Backend)
  | isOpened (index : Int) (result : Bool)
  | set (index : Int) (prop : CapProp) (value : Int) (result : Bool)
  | get (index : Int) (prop : CapProp) (result : Int)
  | read (index : Int) (result : Bool)
  | imwrite (file : String) (result : Bool)
  | deleteCapture (index : Int)
deriving DecidableEq, Repr

/-- The body of the `for (auto const& device : devices)` loop of the listing branch. -/
def listBody (env : Env) (device : Int × Device) : List Event :=
  let opened := env.isOpened device.1 Backend.CAP_ANY
  [Event.printf "== VIDEO DEVICE (id:%d) ==\r\n" [Arg.int device.1],
   Event.printf " * Name: %s\r\n" [Arg.str device.2.deviceName],
   Event.printf " * Path: %s\r\n" [Arg.str device.2.devicePath],
   Event.newCapture device.1 Backend.CAP_ANY,
   Event.isOpened device.1 opened]
  ++ (if opened then [] else [Event.printf " * ERROR: Could not open camera\r\n" []])
  ++ [Event.set device.1 CapProp.CAP_PROP_FRAME_WIDTH 10000
        (env.set device.1 CapProp.CAP_PROP_FRAME_WIDTH 10000),
      Event.set device.1 CapProp.CAP_PROP_FRAME_HEIGHT 10000
        (env.set device.1 CapProp.CAP_PROP_FRAME_HEIGHT 10000),
      Event.get device.1 CapProp.CAP_PROP_FRAME_WIDTH
        (env.get device.1 CapProp.CAP_PROP_FRAME_WIDTH),
      Event.get device.1 CapProp.CAP_PROP_FRAME_HEIGHT
        (env.get device.1 CapProp.CAP_PROP_FRAME_HEIGHT),
      Event.get device.1 CapProp.CAP_PROP_AUTOFOCUS
        (env.get device.1 CapProp.CAP_PROP_AUTOFOCUS),
      Event.printf " * Max width : %d\r\n" [Arg.int (env.get device.1 CapProp.CAP_PROP_FRAME_WIDTH)],
      Event.printf " * Max height : %d\r\n" [Arg.int (env.get device.1 CapProp.CAP_PROP_FRAME_HEIGHT)],
      Event.printf " * Autofocus : %d\r\n" [Arg.int (env.get device.1 CapProp.CAP_PROP_AUTOFOCUS)],
      Event.deleteCapture device.1,
      Event.printf "\r\n" []]

/-- The capture branch of `main` (the `else` of `if (g_list_dev)`), entered with the value
`ret` and the globals `g`: the returned status and the calls made. -/
def captureBranch (env : Env) (ret : Int) (g : Globals) : Int × List Event :=
  let opened := env.isOpened g.g_device Backend.CAP_DSHOW
  let t := [Event.newCapture g.g_device Backend.CAP_DSHOW, Event.isOpened g.g_device opened]
  if ¬ opened then
    (ret, t ++ [Event.printf "Failed to open camera.\r\n" []])
  else
    let okW := env.set g.g_device CapProp.CAP_PROP_FRAME_WIDTH g.g_width
    let t := t ++ [Event.set g.g_device CapProp.CAP_PROP_FRAME_WIDTH g.g_width okW]
      ++ (if okW then [] else [Event.printf "Failed to set Width to %d pixel\r\n" [Arg.int g.g_width]])
    let ret := if okW then ret else -1
    let okH := env.set g.g_device CapProp.CAP_PROP_FRAME_HEIGHT g.g_height
    let t := t ++ [Event.set g.g_device CapProp.CAP_PROP_FRAME_HEIGHT g.g_height okH]
      ++ (if okH then [] else [Event.printf "Failed to set Height to %d pixel\r\n" [Arg.int g.g_height]])
    let ret := if okH then ret else -1
    let focus : Int × List Event :=
      if g.g_focus ≠ -1 then
        let okF := env.set g.g_device CapProp.CAP_PROP_FOCUS g.g_focus
        (if okF then ret else -1,
         t ++ [Event.printf "Configure manual focus : %d\r\n" [Arg.int g.g_focus],
               Event.set g.g_device CapProp.CAP_PROP_FOCUS g.g_focus okF]
           ++ (if okF then [] else [Event.printf "Failed to configure manuel focus\r\n" []]))
      else
        (ret, t)
    let ret := focus.1
    let t := focus.2
    if ret = 0 then
      let g_output := g.g_output ++ (if g.g_extension ≠ "" then g.g_extension else DEFAULT_EXT)
      let okR := env.read g.g_device
      if ¬ okR then
        (-1, t ++ [Event.read g.g_device okR, Event.printf "Failed to read camera frame\r\n" [],
                   Event.deleteCapture g.g_device])
      else
        let okS := env.imwrite g_output
        if ¬ okS then
          (-1, t ++ [Event.read g.g_device okR, Event.imwrite g_output okS,
                     Event.printf "Failed to save camera frame to %s\r\n" [Arg.str g_output],
                     Event.deleteCapture g.g_device])
        else
          (ret, t ++ [Event.read g.g_device okR, Event.imwrite g_output okS,
                      Event.printf "Camera frame save to %s\r\n" [Arg.str g_output],
                      Event.deleteCapture g.g_device])
    else
      (ret, t ++ [Event.deleteCapture g.g_device])

/-- The function `main`, started with the globals at their initial values: the value it
returns and the calls it made, in order. -/
def main (env : Env) (argv : List String) : Int × List Event :=
  let ret := (parseOpts argv defaults).1
  let g := (parseOpts argv defaults).2
  if ret = -1 then
    (-1, [])
  else if ret = 1 then
    (0, [])
  else if g.g_list_dev then
    let devices := env.getVideoDevicesMap
    (if devices = [] then ret else 0, Event.enumerate :: devices.flatMap (listBody env))
  else
    captureBranch env ret g


/-! ## Specification-side vocabulary

The definitions below are not in the source: they spell out the words of the properties
that are checked against the code above. -/

/-- The accepted focus values, in the words of the specification: `-1`, or a multiple of 5
between 0 and 255. -/
def focusAccepted (f : Int) : Prop :=
  f = -1 ∨ (0 ≤ f ∧ f ≤ 255 ∧ f % 5 = 0)

instance (f : Int) : Decidable (focusAccepted f) := by
  unfold focusAccepted; infer_instance

/-- ASCII lower-casing of one character. -/
def toLowerAscii (c : Char) : Char :=
  if 65 ≤ c.toNat ∧ c.toNat ≤ 90 then Char.ofNat (c.toNat + 32) else c

/-- Case-insensitive equality of two strings, in the words of the specification. -/
def equalsIgnoreCase (s t : String) : Prop :=
  s.toList.map toLowerAscii = t.toList.map toLowerAscii

instance (s t : String) : Decidable (equalsIgnoreCase s t) := by
  unfold equalsIgnoreCase; infer_instance

/-- The format names accepted under the specification's case-insensitive reading. -/
def formatAcceptedIgnoringCase (s : String) : Prop :=
  equalsIgnoreCase s "bmp" ∨ equalsIgnoreCase s "jpg" ∨ equalsIgnoreCase s "png"

instance (s : String) : Decidable (formatAcceptedIgnoringCase s) := by
  unfold formatAcceptedIgnoringCase; infer_instance

/-- The spellings of the format names the code compares with, each with the extension it
selects. -/
def formatTable : List (String × String) :=
  [("bmp", ".bmp"), ("BMP", ".bmp"), ("jpg", ".jpg"), ("JPG", ".jpg"),
   ("png", ".png"), ("PNG", ".png")]

/-- The invariant of a configuration: non-negative device, positive width and height, an
accepted focus, and an extension that is unset or one of the three known ones. -/
def ConfigInvariant (g : Globals) : Prop :=
  0 ≤ g.g_device ∧ 0 < g.g_width ∧ 0 < g.g_height ∧ focusAccepted g.g_focus ∧
    g.g_extension ∈ ["", ".bmp", ".jpg", ".png"]

instance (g : Globals) : Decidable (ConfigInvariant g) := by
  unfold ConfigInvariant; infer_instance

/-- What an option position of the command line is, read left to right. -/
inductive OptionPos where
  | helpOrVersion
  | valid
  | invalid
deriving DecidableEq, Repr

/-- The options that take a value (and consume the next token). -/
def takesValue (a : String) : Prop :=
  a ∈ ["/d", "/device", "/o", "/output", "/f", "/focus", "/F", "/format", "/H", "/height",
    "/W", "/width"]

instance (a : String) : Decidable (takesValue a) := by
  unfold takesValue; infer_instance

/-- An out-of-range value `v` of the value-taking option `a`: device below 0, width or
height not positive, focus not accepted, format not recognised. -/
def valueOutOfRange (a v : String) : Prop :=
  ((a = "/d" ∨ a = "/device") ∧ atoi v < 0) ∨
  ((a = "/W" ∨ a = "/width") ∧ atoi v ≤ 0) ∨
  ((a = "/H" ∨ a = "/height") ∧ atoi v ≤ 0) ∨
  ((a = "/f" ∨ a = "/focus") ∧ ¬ focusAccepted (atoi v)) ∨
  ((a = "/F" ∨ a = "/format") ∧ v ∉ formatTable.map Prod.fst)

instance (a v : String) : Decidable (valueOutOfRange a v) := by
  unfold valueOutOfRange; infer_instance

/-- The option positions of a token list (the arguments after the program name), scanning
left to right, each value-taking option consuming the next token.  A position is `invalid`
when it holds an unknown option, a value-taking option with no following token, or a
value-taking option with an out-of-range value. -/
def scanOptions : List String → List OptionPos
  | [] => []
  | [a] =>
    if a = "/h" ∨ a = "/help" ∨ a = "/v" ∨ a = "/version" then [OptionPos.helpOrVersion]
    else if a = "/l" ∨ a = "/list-device" then [OptionPos.valid]
    else [OptionPos.invalid]
  | a :: v :: rest =>
    if a = "/h" ∨ a = "/help" ∨ a = "/v" ∨ a = "/version" then
      OptionPos.helpOrVersion :: scanOptions (v :: rest)
    else if a = "/l" ∨ a = "/list-device" then
      OptionPos.valid :: scanOptions (v :: rest)
    else if takesValue a then
      (if valueOutOfRange a v then OptionPos.invalid else OptionPos.valid) :: scanOptions rest
    else
      OptionPos.invalid :: scanOptions (v :: rest)

/-- The position kind that a value of `ret` after one iteration stands for. -/
def posOfRet (ret : Int) : OptionPos :=
  if ret = 1 then OptionPos.helpOrVersion
  else if ret = 0 then OptionPos.valid
  else OptionPos.invalid

/-- The result fixed by the first position that is not `valid`: `1` for help or version,
`-1` for an invalid position, `0` when every position is valid. -/
def firstDecisive : List OptionPos → Int
  | [] => 0
  | OptionPos.valid :: t => firstDecisive t
  | OptionPos.helpOrVersion :: _ => 1
  | OptionPos.invalid :: _ => -1

/-- Field by field, two final configurations either coincide or are both still the value
the respective run started from (`g1` for `f1`, `g2` for `f2`). -/
def Agree (g1 g2 f1 f2 : Globals) : Prop :=
  (f1.g_list_dev = f2.g_list_dev ∨ (f1.g_list_dev = g1.g_list_dev ∧ f2.g_list_dev = g2.g_list_dev)) ∧
  (f1.g_extension = f2.g_extension ∨ (f1.g_extension = g1.g_extension ∧ f2.g_extension = g2.g_extension)) ∧
  (f1.g_output = f2.g_output ∨ (f1.g_output = g1.g_output ∧ f2.g_output = g2.g_output)) ∧
  (f1.g_width = f2.g_width ∨ (f1.g_width = g1.g_width ∧ f2.g_width = g2.g_width)) ∧
  (f1.g_height = f2.g_height ∨ (f1.g_height = g1.g_height ∧ f2.g_height = g2.g_height)) ∧
  (f1.g_device = f2.g_device ∨ (f1.g_device = g1.g_device ∧ f2.g_device = g2.g_device)) ∧
  (f1.g_focus = f2.g_focus ∨ (f1.g_focus = g1.g_focus ∧ f2.g_focus = g2.g_focus))

/-- The configuration attempts of a trace: its `set` calls, in order. -/
def setCalls (t : List Event) : List Event :=
  t.filter (fun e => match e with
    | Event.set _ _ _ _ => true
    | _ => false)

/-- The number of frame reads in a trace. -/
def readCount (t : List Event) : Nat :=
  (t.filter (fun e => match e with
    | Event.read _ _ => true
    | _ => false)).length

/-- The file names handed to `cv::imwrite` in a trace, in order. -/
def writtenFiles : List Event → List String
  | [] => []
  | Event.imwrite f _ :: t => f :: writtenFiles t
  | _ :: t => writtenFiles t

/-- The capture handles constructed and not yet deleted after the trace `t`, starting from
the handles `held`. -/
def unreleased : List Event → List Int → List Int
  | [], held => held
  | Event.newCapture i _ :: t, held => unreleased t (held ++ [i])
  | Event.deleteCapture i :: t, held => unreleased t (held.erase i)
  | _ :: t, held => unreleased t held

/-- The value-taking options of a token list with the value each one is given, scanning
left to right, each value-taking option consuming the next token. -/
def valuedOptions : List String → List (String × String)
  | [] => []
  | [_] => []
  | a :: v :: rest =>
    if takesValue a then (a, v) :: valuedOptions rest else valuedOptions (v :: rest)

/-- The base filename given on the command line: the value of the last `/o` or `/output`
among the valued options, and `b` when there is none. -/
def givenOutput : List (String × String) → String → String
  | [], b => b
  | (a, v) :: t, b => if a = "/o" ∨ a = "/output" then givenOutput t v else givenOutput t b

/-- The extension selected on the command line: the one the format table gives for the
value of the last `/F` or `/format` among the valued options, and `e` when there is none. -/
def selectedExtension : List (String × String) → Option String → Option String
  | [], e => e
  | (a, v) :: t, e =>
    if a = "/F" ∨ a = "/format" then selectedExtension t (formatTable.lookup v)
    else selectedExtension t e

/-- The filename the specification derives from the arguments after the program name: the
base filename given by `/o` (or the default `output`), followed by the selected extension
when a format was selected, and by `.jpg` when none was. -/
def derivedFilename (tokens : List String) : String :=
  givenOutput (valuedOptions tokens) "output" ++
    match selectedExtension (valuedOptions tokens) none with
    | some e => e
    | none => ".jpg"

/-- The extension held by `g_extension`, read as a selection: none when it is empty. -/
def extOption (s : String) : Option String :=
  if s = "" then none else some s

/-- An environment in which every call succeeds, with one video device of index 0. -/
def workingEnv : Env :=
  { getVideoDevicesMap := [(0, { id := 0, devicePath := "path0", deviceName := "camera0" })]
    isOpened := fun _ _ => true
    set := fun _ _ _ => true
    get := fun _ _ => 0
    read := fun _ => true
    imwrite := fun _ => true }

/-- An environment in which no device can be opened. -/
def closedEnv : Env :=
  { getVideoDevicesMap := []
    isOpened := fun _ _ => false
    set := fun _ _ _ => false
    get := fun _ _ => 0
    read := fun _ => false
    imwrite := fun _ => false }

/-- An environment in which the device opens and only the height cannot be set. -/
def noHeightEnv : Env :=
  { getVideoDevicesMap := []
    isOpened := fun _ _ => true
    set := fun _ p _ => decide (p ≠ CapProp.CAP_PROP_FRAME_HEIGHT)
    get := fun _ _ => 0
    read := fun _ => true
    imwrite := fun _ => true }

/-! ## The loop of `parseOpts`: case analysis and termination -/

/-- Case analysis of one loop iteration at index `n`, uniformly in the incoming `ret` and
globals: the iteration is one of the listed state transformers, selected by the token
`a = argv[n]`, by whether a next token exists, and by that token `v = argv[n+1]`. -/
theorem loopBody_cases (argv : List String) (n : Nat)
    {motive : (Int → Globals → ParseState) → Prop}
    (help : (argv.getD n "" = "/h" ∨ argv.getD n "" = "/help") ∨
        (argv.getD n "" = "/v" ∨ argv.getD n "" = "/version") →
      motive (fun _ g => ⟨n + 1, 1, g⟩))
    (missing : argv.getD n "" ∈ ["/d", "/device", "/o", "/output", "/f", "/focus", "/F",
        "/format", "/H", "/height", "/W", "/width"] → ¬ n + 1 < argv.length →
      motive (fun _ g => ⟨n + 2, -1, g⟩))
    (deviceBad : argv.getD n "" = "/d" ∨ argv.getD n "" = "/device" → n + 1 < argv.length →
      atoi (argv.getD (n + 1) "") < 0 →
      motive (fun _ g => ⟨n + 2, -1, { g with g_device := atoi (argv.getD (n + 1) "") }⟩))
    (deviceOk : argv.getD n "" = "/d" ∨ argv.getD n "" = "/device" → n + 1 < argv.length →
      ¬ atoi (argv.getD (n + 1) "") < 0 →
      motive (fun ret g => ⟨n + 2, ret, { g with g_device := atoi (argv.getD (n + 1) "") }⟩))
    (output : argv.getD n "" = "/o" ∨ argv.getD n "" = "/output" → n + 1 < argv.length →
      motive (fun ret g => ⟨n + 2, ret, { g with g_output := argv.getD (n + 1) "" }⟩))
    (focusBad : argv.getD n "" = "/f" ∨ argv.getD n "" = "/focus" → n + 1 < argv.length →
      atoi (argv.getD (n + 1) "") ≠ -1 →
      ((atoi (argv.getD (n + 1) "") < -1 ∨ atoi (argv.getD (n + 1) "") > 255) ∨
        (atoi (argv.getD (n + 1) "")).tmod 5 ≠ 0) →
      motive (fun _ g => ⟨n + 2, -1, { g with g_focus := atoi (argv.getD (n + 1) "") }⟩))
    (focusOk : argv.getD n "" = "/f" ∨ argv.getD n "" = "/focus" → n + 1 < argv.length →
      (atoi (argv.getD (n + 1) "") = -1 ∨
        (¬ (atoi (argv.getD (n + 1) "") < -1 ∨ atoi (argv.getD (n + 1) "") > 255) ∧
          (atoi (argv.getD (n + 1) "")).tmod 5 = 0)) →
      motive (fun ret g => ⟨n + 2, ret, { g with g_focus := atoi (argv.getD (n + 1) "") }⟩))
    (formatOk : argv.getD n "" = "/F" ∨ argv.getD n "" = "/format" → n + 1 < argv.length →
      ∀ ext : String, (argv.getD (n + 1) "", ext) ∈ [("bmp", ".bmp"), ("BMP", ".bmp"),
        ("jpg", ".jpg"), ("JPG", ".jpg"), ("png", ".png"), ("PNG", ".png")] →
      motive (fun ret g => ⟨n + 2, ret, { g with g_extension := ext }⟩))
    (formatBad : argv.getD n "" = "/F" ∨ argv.getD n "" = "/format" → n + 1 < argv.length →
      argv.getD (n + 1) "" ∉ ["bmp", "BMP", "jpg", "JPG", "png", "PNG"] →
      motive (fun _ g => ⟨n + 2, -1, g⟩))
    (list : argv.getD n "" = "/l" ∨ argv.getD n "" = "/list-device" →
      motive (fun ret g => ⟨n + 1, ret, { g with g_list_dev := true }⟩))
    (heightBad : argv.getD n "" = "/H" ∨ argv.getD n "" = "/height" → n + 1 < argv.length →
      atoi (argv.getD (n + 1) "") ≤ 0 →
      motive (fun _ g => ⟨n + 2, -1, { g with g_height := atoi (argv.getD (n + 1) "") }⟩))
    (heightOk : argv.getD n "" = "/H" ∨ argv.getD n "" = "/height" → n + 1 < argv.length →
      ¬ atoi (argv.getD (n + 1) "") ≤ 0 →
      motive (fun ret g => ⟨n + 2, ret, { g with g_height := atoi (argv.getD (n + 1) "") }⟩))
    (widthBad : argv.getD n "" = "/W" ∨ argv.getD n "" = "/width" → n + 1 < argv.length →
      atoi (argv.getD (n + 1) "") ≤ 0 →
      motive (fun _ g => ⟨n + 2, -1, { g with g_width := atoi (argv.getD (n + 1) "") }⟩))
    (widthOk : argv.getD n "" = "/W" ∨ argv.getD n "" = "/width" → n + 1 < argv.length →
      ¬ atoi (argv.getD (n + 1) "") ≤ 0 →
      motive (fun ret g => ⟨n + 2, ret, { g with g_width := atoi (argv.getD (n + 1) "") }⟩))
    (unknown : argv.getD n "" ∉ ["/h", "/help", "/v", "/version", "/d", "/device", "/o",
        "/output", "/f", "/focus", "/F", "/format", "/l", "/list-device", "/H", "/height",
        "/W", "/width"] →
      motive (fun _ g => ⟨n + 1, -1, g⟩)) :
    motive (fun ret g => loopBody argv ⟨n, ret, g⟩) := by
  unfold loopBody
  dsimp only
  generalize argv.getD n "" = a at *
  generalize argv.getD (n + 1) "" = v at *
  by_cases h1 : a = "/h" ∨ a = "/help"
  · simp only [if_pos h1]; exact help (Or.inl h1)
  simp only [if_neg h1]
  by_cases h2 : a = "/v" ∨ a = "/version"
  · simp only [if_pos h2]; exact help (Or.inr h2)
  simp only [if_neg h2]
  by_cases h3 : a = "/d" ∨ a = "/device"
  · simp only [if_pos h3]
    by_cases c : n + 1 < argv.length
    · simp only [if_pos c]
      by_cases hv : atoi v < 0
      · simp only [if_pos hv]; exact deviceBad h3 c hv
      · simp only [if_neg hv]; exact deviceOk h3 c hv
    · simp only [if_neg c]
      exact missing (by rcases h3 with h | h <;> simp [h]) c
  simp only [if_neg h3]
  by_cases h4 : a = "/o" ∨ a = "/output"
  · simp only [if_pos h4]
    by_cases c : n + 1 < argv.length
    · simp only [if_pos c]; exact output h4 c
    · simp only [if_neg c]
      exact missing (by rcases h4 with h | h <;> simp [h]) c
  simp only [if_neg h4]
  by_cases h5 : a = "/f" ∨ a = "/focus"
  · simp only [if_pos h5]
    by_cases c : n + 1 < argv.length
    · simp only [if_pos c]
      by_cases hv : atoi v ≠ -1
      · simp only [if_pos hv]
        by_cases hr : atoi v < -1 ∨ atoi v > 255
        · simp only [if_pos hr]; exact focusBad h5 c hv (Or.inl hr)
        · simp only [if_neg hr]
          by_cases hm : (atoi v).tmod 5 ≠ 0
          · simp only [if_pos hm]; exact focusBad h5 c hv (Or.inr hm)
          · simp only [if_neg hm]; exact focusOk h5 c (Or.inr ⟨hr, not_not.mp hm⟩)
      · simp only [if_neg hv]; exact focusOk h5 c (Or.inl (not_not.mp hv))
    · simp only [if_neg c]
      exact missing (by rcases h5 with h | h <;> simp [h]) c
  simp only [if_neg h5]
  by_cases h6 : a = "/F" ∨ a = "/format"
  · simp only [if_pos h6]
    by_cases c : n + 1 < argv.length
    · simp only [if_pos c]
      by_cases e1 : v = "bmp" ∨ v = "BMP"
      · simp only [if_pos e1]
        exact formatOk h6 c ".bmp" (by rcases e1 with h | h <;> simp [h])
      simp only [if_neg e1]
      by_cases e2 : v = "jpg" ∨ v = "JPG"
      · simp only [if_pos e2]
        exact formatOk h6 c ".jpg" (by rcases e2 with h | h <;> simp [h])
      simp only [if_neg e2]
      by_cases e3 : v = "png" ∨ v = "PNG"
      · simp only [if_pos e3]
        exact formatOk h6 c ".png" (by rcases e3 with h | h <;> simp [h])
      simp only [if_neg e3]
      refine formatBad h6 c ?_
      intro hm
      simp only [List.mem_cons, List.mem_singleton, List.not_mem_nil, or_false] at hm
      rcases hm with h | h | h | h | h | h
      · exact e1 (Or.inl h)
      · exact e1 (Or.inr h)
      · exact e2 (Or.inl h)
      · exact e2 (Or.inr h)
      · exact e3 (Or.inl h)
      · exact e3 (Or.inr h)
    · simp only [if_neg c]
      exact missing (by rcases h6 with h | h <;> simp [h]) c
  simp only [if_neg h6]
  by_cases h7 : a = "/l" ∨ a = "/list-device"
  · simp only [if_pos h7]; exact list h7
  simp only [if_neg h7]
  by_cases h8 : a = "/H" ∨ a = "/height"
  · simp only [if_pos h8]
    by_cases c : n + 1 < argv.length
    · simp only [if_pos c]
      by_cases hv : atoi v ≤ 0
      · simp only [if_pos hv]; exact heightBad h8 c hv
      · simp only [if_neg hv]; exact heightOk h8 c hv
    · simp only [if_neg c]
      exact missing (by rcases h8 with h | h <;> simp [h]) c
  simp only [if_neg h8]
  by_cases h9 : a = "/W" ∨ a = "/width"
  · simp only [if_pos h9]
    by_cases c : n + 1 < argv.length
    · simp only [if_pos c]
      by_cases hv : atoi v ≤ 0
      · simp only [if_pos hv]; exact widthBad h9 c hv
      · simp only [if_neg hv]; exact widthOk h9 c hv
    · simp only [if_neg c]
      exact missing (by rcases h9 with h | h <;> simp [h]) c
  simp only [if_neg h9]
  refine unknown ?_
  intro hm
  simp only [List.mem_cons, List.mem_singleton, List.not_mem_nil, or_false] at hm
  rcases hm with h | h | h | h | h | h | h | h | h | h | h | h | h | h | h | h | h | h
  · exact h1 (Or.inl h)
  · exact h1 (Or.inr h)
  · exact h2 (Or.inl h)
  · exact h2 (Or.inr h)
  · exact h3 (Or.inl h)
  · exact h3 (Or.inr h)
  · exact h4 (Or.inl h)
  · exact h4 (Or.inr h)
  · exact h5 (Or.inl h)
  · exact h5 (Or.inr h)
  · exact h6 (Or.inl h)
  · exact h6 (Or.inr h)
  · exact h7 (Or.inl h)
  · exact h7 (Or.inr h)
  · exact h8 (Or.inl h)
  · exact h8 (Or.inr h)
  · exact h9 (Or.inl h)
  · exact h9 (Or.inr h)


theorem loopBody_n_gt (argv : List String) (s : ParseState) : s.n < (loopBody argv s).n := by
  have h := loopBody_cases argv s.n (motive := fun F => ∀ ret g, s.n < (F ret g).n)
  apply h <;> intros <;> simp

theorem loopBody_n_le (argv : List String) (s : ParseState) : (loopBody argv s).n ≤ s.n + 2 := by
  have h := loopBody_cases argv s.n (motive := fun F => ∀ ret g, (F ret g).n ≤ s.n + 2)
  apply h <;> intros <;> simp

/-- Once the loop condition is false the loop returns its state. -/
theorem parseLoop_done (argv : List String) (fuel : Nat) (s : ParseState)
    (h : ¬ (s.n < argv.length ∧ s.ret = 0)) : parseLoop argv fuel s = s := by
  cases fuel with
  | zero => rfl
  | succ k => simp [parseLoop, h]

/-- With `argc - n` iterations or more the loop runs to its exit, whatever the surplus. -/
theorem parseLoop_fuel (argv : List String) (fuel k : Nat) :
    ∀ s : ParseState, argv.length ≤ s.n + fuel →
      parseLoop argv (fuel + k) s = parseLoop argv fuel s := by
  induction fuel with
  | zero =>
    intro s h
    have : ¬ (s.n < argv.length ∧ s.ret = 0) := by omega
    rw [parseLoop_done argv _ s this, parseLoop_done argv _ s this]
  | succ f ih =>
    intro s h
    have e : f + 1 + k = (f + k) + 1 := by omega
    rw [e]
    simp only [parseLoop]
    split_ifs with hc
    · apply ih
      have := loopBody_n_gt argv s
      omega
    · rfl

/-- The loop exits: with `argc - n` iterations the final state falsifies the condition. -/
theorem parseLoop_exit (argv : List String) (fuel : Nat) :
    ∀ s : ParseState, argv.length ≤ s.n + fuel →
      ¬ ((parseLoop argv fuel s).n < argv.length ∧ (parseLoop argv fuel s).ret = 0) := by
  induction fuel with
  | zero => intro s h; simp only [parseLoop]; omega
  | succ f ih =>
    intro s h
    simp only [parseLoop]
    split_ifs with hc
    · apply ih
      have := loopBody_n_gt argv s
      omega
    · exact hc

/-! ## The scan of option positions -/

theorem drop_eq_getD_cons (argv : List String) (n : Nat) (h : n < argv.length) :
    argv.drop n = argv.getD n "" :: argv.drop (n + 1) := by
  rw [List.drop_eq_getElem_cons h, List.getD_eq_getElem argv "" h]

theorem tmod_five (f : Int) (h : 0 ≤ f) : f.tmod 5 = f % 5 :=
  Int.tmod_eq_emod h (by decide)

/-- The code's focus check agrees with the specification's accepted values. -/
theorem focus_check_iff (f : Int) :
    (f = -1 ∨ (¬ (f < -1 ∨ f > 255) ∧ f.tmod 5 = 0)) ↔ focusAccepted f := by
  unfold focusAccepted
  constructor
  · rintro (h | ⟨h1, h2⟩)
    · exact Or.inl h
    · by_cases hf : f = -1
      · exact Or.inl hf
      · have h0 : 0 ≤ f := by omega
        rw [tmod_five f h0] at h2
        exact Or.inr ⟨h0, by omega, h2⟩
  · rintro (h | ⟨h0, h1, h2⟩)
    · exact Or.inl h
    · exact Or.inr ⟨by omega, by rw [tmod_five f h0]; exact h2⟩

theorem scan_help (a : String) (rest : List String)
    (h : (a = "/h" ∨ a = "/help") ∨ (a = "/v" ∨ a = "/version")) :
    scanOptions (a :: rest) = OptionPos.helpOrVersion :: scanOptions rest := by
  have h' : a = "/h" ∨ a = "/help" ∨ a = "/v" ∨ a = "/version" := by tauto
  cases rest <;> simp [scanOptions, h']

theorem scan_list (a : String) (rest : List String) (h : a = "/l" ∨ a = "/list-device") :
    scanOptions (a :: rest) = OptionPos.valid :: scanOptions rest := by
  rcases h with rfl | rfl <;> cases rest <;> simp [scanOptions]

theorem scan_missing (a : String) (h : takesValue a) : scanOptions [a] = [OptionPos.invalid] := by
  simp only [takesValue, List.mem_cons, List.mem_singleton, List.not_mem_nil, or_false] at h
  rcases h with h | h | h | h | h | h | h | h | h | h | h | h <;> subst h <;>
    simp [scanOptions]

theorem scan_value (a v : String) (rest : List String) (h : takesValue a) :
    scanOptions (a :: v :: rest) =
      (if valueOutOfRange a v then OptionPos.invalid else OptionPos.valid) ::
        scanOptions rest := by
  have h' := h
  simp only [takesValue, List.mem_cons, List.mem_singleton, List.not_mem_nil, or_false] at h
  rcases h with h | h | h | h | h | h | h | h | h | h | h | h <;> subst h <;>
    simp [scanOptions, h']

theorem scan_unknown (a : String) (rest : List String)
    (h : a ∉ ["/h", "/help", "/v", "/version", "/d", "/device", "/o", "/output", "/f",
      "/focus", "/F", "/format", "/l", "/list-device", "/H", "/height", "/W", "/width"]) :
    scanOptions (a :: rest) = OptionPos.invalid :: scanOptions rest := by
  simp only [List.mem_cons, List.mem_singleton, List.not_mem_nil, or_false, not_or] at h
  obtain ⟨h1, h2, h3, h4, h5, h6, h7, h8, h9, h10, h11, h12, h13, h14, h15, h16, h17, h18⟩ := h
  cases rest <;>
    simp [scanOptions, takesValue, h1, h2, h3, h4, h5, h6, h7, h8, h9, h10, h11, h12, h13, h14,
      h15, h16, h17, h18]

theorem outOfRange_device (a v : String) (h : a = "/d" ∨ a = "/device") :
    takesValue a ∧ (valueOutOfRange a v ↔ atoi v < 0) := by
  rcases h with rfl | rfl <;> simp [valueOutOfRange, takesValue]

theorem outOfRange_output (a v : String) (h : a = "/o" ∨ a = "/output") :
    takesValue a ∧ ¬ valueOutOfRange a v := by
  rcases h with rfl | rfl <;> simp [valueOutOfRange, takesValue]

theorem outOfRange_focus (a v : String) (h : a = "/f" ∨ a = "/focus") :
    takesValue a ∧ (valueOutOfRange a v ↔ ¬ focusAccepted (atoi v)) := by
  rcases h with rfl | rfl <;> simp [valueOutOfRange, takesValue]

theorem outOfRange_format (a v : String) (h : a = "/F" ∨ a = "/format") :
    takesValue a ∧
      (valueOutOfRange a v ↔ v ∉ ["bmp", "BMP", "jpg", "JPG", "png", "PNG"]) := by
  rcases h with rfl | rfl <;> simp [valueOutOfRange, takesValue, formatTable]

theorem outOfRange_height (a v : String) (h : a = "/H" ∨ a = "/height") :
    takesValue a ∧ (valueOutOfRange a v ↔ atoi v ≤ 0) := by
  rcases h with rfl | rfl <;> simp [valueOutOfRange, takesValue]

theorem outOfRange_width (a v : String) (h : a = "/W" ∨ a = "/width") :
    takesValue a ∧ (valueOutOfRange a v ↔ atoi v ≤ 0) := by
  rcases h with rfl | rfl <;> simp [valueOutOfRange, takesValue]

/-- One iteration consumes exactly one option position of the scan, and the value it
leaves in `ret` says which kind that position is. -/
theorem scan_loopBody (argv : List String) (n : Nat) (hn : n < argv.length) (g : Globals) :
    scanOptions (argv.drop n) =
      posOfRet (loopBody argv ⟨n, 0, g⟩).ret ::
        scanOptions (argv.drop (loopBody argv ⟨n, 0, g⟩).n) := by
  have hd0 := drop_eq_getD_cons argv n hn
  have hd1 : n + 1 < argv.length →
      argv.drop (n + 1) = argv.getD (n + 1) "" :: argv.drop (n + 2) :=
    fun h => drop_eq_getD_cons argv (n + 1) h
  have hd2 : ¬ n + 1 < argv.length → argv.drop (n + 1) = [] ∧ argv.drop (n + 2) = [] :=
    fun h => ⟨List.drop_eq_nil_of_le (by omega), List.drop_eq_nil_of_le (by omega)⟩
  have h := loopBody_cases argv n (motive := fun F => ∀ g : Globals,
    scanOptions (argv.drop n) = posOfRet (F 0 g).ret :: scanOptions (argv.drop (F 0 g).n))
  refine h ?_ ?_ ?_ ?_ ?_ ?_ ?_ ?_ ?_ ?_ ?_ ?_ ?_ ?_ ?_ g
  all_goals clear h
  · intro ha g
    rw [hd0, scan_help _ _ ha]; rfl
  · intro ha c g
    rw [hd0, (hd2 c).1, (hd2 c).2, scan_missing _ ha]; rfl
  · intro ha c hv g
    rw [hd0, hd1 c, scan_value _ _ _ (outOfRange_device _ "" ha).1,
      if_pos ((outOfRange_device _ _ ha).2.mpr hv)]; rfl
  · intro ha c hv g
    rw [hd0, hd1 c, scan_value _ _ _ (outOfRange_device _ "" ha).1,
      if_neg (fun hc => hv ((outOfRange_device _ _ ha).2.mp hc))]; rfl
  · intro ha c g
    rw [hd0, hd1 c, scan_value _ _ _ (outOfRange_output _ "" ha).1,
      if_neg (outOfRange_output _ _ ha).2]; rfl
  · intro ha c _ hv g
    have hnot : ¬ focusAccepted (atoi (argv.getD (n + 1) "")) := by
      rw [← focus_check_iff]; tauto
    rw [hd0, hd1 c, scan_value _ _ _ (outOfRange_focus _ "" ha).1,
      if_pos ((outOfRange_focus _ _ ha).2.mpr hnot)]; rfl
  · intro ha c hv g
    have hacc : focusAccepted (atoi (argv.getD (n + 1) "")) := (focus_check_iff _).mp hv
    rw [hd0, hd1 c, scan_value _ _ _ (outOfRange_focus _ "" ha).1,
      if_neg (fun hc => (outOfRange_focus _ _ ha).2.mp hc hacc)]; rfl
  · intro ha c ext hext g
    have hv : argv.getD (n + 1) "" ∈ ["bmp", "BMP", "jpg", "JPG", "png", "PNG"] := by
      simp only [List.mem_cons, List.mem_singleton, List.not_mem_nil, or_false,
        Prod.mk.injEq] at hext ⊢
      tauto
    rw [hd0, hd1 c, scan_value _ _ _ (outOfRange_format _ "" ha).1,
      if_neg (fun hc => (outOfRange_format _ _ ha).2.mp hc hv)]; rfl
  · intro ha c hv g
    rw [hd0, hd1 c, scan_value _ _ _ (outOfRange_format _ "" ha).1,
      if_pos ((outOfRange_format _ _ ha).2.mpr hv)]; rfl
  · intro ha g
    rw [hd0, scan_list _ _ ha]; rfl
  · intro ha c hv g
    rw [hd0, hd1 c, scan_value _ _ _ (outOfRange_height _ "" ha).1,
      if_pos ((outOfRange_height _ _ ha).2.mpr hv)]; rfl
  · intro ha c hv g
    rw [hd0, hd1 c, scan_value _ _ _ (outOfRange_height _ "" ha).1,
      if_neg (fun hc => hv ((outOfRange_height _ _ ha).2.mp hc))]; rfl
  · intro ha c hv g
    rw [hd0, hd1 c, scan_value _ _ _ (outOfRange_width _ "" ha).1,
      if_pos ((outOfRange_width _ _ ha).2.mpr hv)]; rfl
  · intro ha c hv g
    rw [hd0, hd1 c, scan_value _ _ _ (outOfRange_width _ "" ha).1,
      if_neg (fun hc => hv ((outOfRange_width _ _ ha).2.mp hc))]; rfl
  · intro ha g
    rw [hd0, scan_unknown _ _ ha]; rfl

/-- After an iteration entered with `ret = 0`, `ret` is `0`, `1` or `-1`. -/
theorem loopBody_ret (argv : List String) (n : Nat) (g : Globals) :
    (loopBody argv ⟨n, 0, g⟩).ret = 0 ∨ (loopBody argv ⟨n, 0, g⟩).ret = 1 ∨
      (loopBody argv ⟨n, 0, g⟩).ret = -1 := by
  have h := loopBody_cases argv n (motive := fun F => ∀ g : Globals,
    (F 0 g).ret = 0 ∨ (F 0 g).ret = 1 ∨ (F 0 g).ret = -1)
  apply h <;> intros <;> simp

/-- The value returned by the loop is the one fixed by the first option position of the
scan that is not valid. -/
theorem parseLoop_scan (argv : List String) (fuel : Nat) :
    ∀ (n : Nat) (g : Globals), argv.length ≤ n + fuel →
      (parseLoop argv fuel ⟨n, 0, g⟩).ret = firstDecisive (scanOptions (argv.drop n)) := by
  induction fuel with
  | zero =>
    intro n g h
    rw [List.drop_eq_nil_of_le (by omega)]
    rfl
  | succ f ih =>
    intro n g h
    by_cases hn : n < argv.length
    · have hstep : parseLoop argv (f + 1) ⟨n, 0, g⟩ = parseLoop argv f (loopBody argv ⟨n, 0, g⟩) := by
        simp [parseLoop, hn]
      rw [hstep, scan_loopBody argv n hn g]
      have hgt := loopBody_n_gt argv ⟨n, 0, g⟩
      have hret := loopBody_ret argv n g
      generalize loopBody argv ⟨n, 0, g⟩ = r at hgt hret ⊢
      obtain ⟨rn, rr, rg⟩ := r
      simp only at hgt hret ⊢
      rcases hret with h0 | h1 | h2
      · subst h0
        rw [ih rn rg (by omega)]
        rfl
      · subst h1
        rw [parseLoop_done argv f _ (by simp)]
        rfl
      · subst h2
        rw [parseLoop_done argv f _ (by simp)]
        rfl
    · rw [parseLoop_done argv _ _ (by simp [hn]), List.drop_eq_nil_of_le (by omega)]
      rfl

/-- The value returned by `parseOpts` is the one fixed by the first option position that
is not valid; it does not depend on the globals. -/
theorem parseOpts_ret (argv : List String) (g : Globals) :
    (parseOpts argv g).1 = firstDecisive (scanOptions (argv.drop 1)) := by
  unfold parseOpts
  exact parseLoop_scan argv argv.length 1 g (by omega)

theorem firstDecisive_invalid (l : List OptionPos) (hno : OptionPos.helpOrVersion ∉ l)
    (herr : OptionPos.invalid ∈ l) : firstDecisive l = -1 := by
  induction l with
  | nil => simp at herr
  | cons p t ih =>
    cases p with
    | helpOrVersion => simp at hno
    | valid =>
      simp only [firstDecisive]
      exact ih (fun h => hno (List.mem_cons_of_mem _ h)) (by simpa using herr)
    | invalid => rfl

theorem firstDecisive_help (pre post : List OptionPos) (hpre : OptionPos.invalid ∉ pre) :
    firstDecisive (pre ++ OptionPos.helpOrVersion :: post) = 1 := by
  induction pre with
  | nil => rfl
  | cons p t ih =>
    cases p with
    | helpOrVersion => rfl
    | valid =>
      simp only [List.cons_append, firstDecisive]
      exact ih (fun h => hpre (List.mem_cons_of_mem _ h))
    | invalid => simp at hpre

/-! ## Focus validation -/

/-- C1. Focus validation in `parseOpts`: in an iteration that handles `/f` or `/focus` with
a following token, entered with `ret = 0`, the result is not set to `-1` exactly when the
integer `f = atoi(argv[n+1])` is `-1` or a multiple of 5 in `[0, 255]`; the same holds
for the whole of `parseOpts` on a command line made of that one option; 37 and 260 are
rejected, 40 and -1 are accepted. -/
theorem focus_validation :
    (∀ (argv : List String) (s : ParseState),
      (argv.getD s.n "" = "/f" ∨ argv.getD s.n "" = "/focus") →
      s.n + 1 < argv.length → s.ret = 0 →
      ((loopBody argv s).ret ≠ -1 ↔ focusAccepted (atoi (argv.getD (s.n + 1) "")))) ∧
    (∀ (prog opt v : String), opt = "/f" ∨ opt = "/focus" →
      ((parseOpts [prog, opt, v] defaults).1 ≠ -1 ↔ focusAccepted (atoi v))) ∧
    (parseOpts ["CameraGrab.exe", "/f", "37"] defaults).1 = -1 ∧
    (parseOpts ["CameraGrab.exe", "/f", "260"] defaults).1 = -1 ∧
    (parseOpts ["CameraGrab.exe", "/f", "40"] defaults).1 = 0 ∧
    (parseOpts ["CameraGrab.exe", "/f", "-1"] defaults).1 = 0 := by
  refine ⟨?_, ?_, by decide, by decide, by decide, by decide⟩
  · intro argv s ha c hret
    obtain ⟨n, ret, g⟩ := s
    simp only at ha c hret
    subst hret
    have h := loopBody_cases argv n (motive := fun F => ∀ g : Globals,
      ((F 0 g).ret ≠ -1 ↔ focusAccepted (atoi (argv.getD (n + 1) ""))))
    refine h ?help ?missing ?deviceBad ?deviceOk ?output ?focusBad ?focusOk ?formatOk
      ?formatBad ?list ?heightBad ?heightOk ?widthBad ?widthOk ?unknown g
    all_goals clear h
    all_goals generalize argv.getD n "" = a at *
    all_goals generalize argv.getD (n + 1) "" = v at *
    case focusBad =>
      intro _ _ _ hv g
      have hnot : ¬ focusAccepted (atoi v) := by
        rw [← focus_check_iff]; tauto
      simp [hnot]
    case focusOk =>
      intro _ _ hv g
      simp [(focus_check_iff _).mp hv]
    case missing => intro _ hc; exact absurd c hc
    all_goals
      intro ha'
      exfalso
      rcases ha with ha | ha <;> simp [ha] at ha'
  · intro prog opt v hopt
    rw [parseOpts_ret]
    simp only [List.drop_succ_cons, List.drop_zero]
    have hs : scanOptions [opt, v] =
        [if valueOutOfRange opt v then OptionPos.invalid else OptionPos.valid] := by
      rw [scan_value _ _ _ (outOfRange_focus opt "" hopt).1]; rfl
    rw [hs]
    by_cases hacc : focusAccepted (atoi v)
    · rw [if_neg (fun hc => (outOfRange_focus opt v hopt).2.mp hc hacc)]
      simp [firstDecisive, hacc]
    · rw [if_pos ((outOfRange_focus opt v hopt).2.mpr hacc)]
      simp [firstDecisive, hacc]

/-- Witness of `focus_validation` at the command line `/focus 7`. -/
theorem focus_validation_witness :
    (loopBody ["CameraGrab.exe", "/focus", "7"] ⟨1, 0, defaults⟩).ret = -1 ∧
      ¬ focusAccepted (atoi "7") :=
  ⟨by decide, fun h =>
    (focus_validation.1 ["CameraGrab.exe", "/focus", "7"] ⟨1, 0, defaults⟩
      (Or.inr (by decide)) (by decide) rfl).mpr h (by decide)⟩

/-! ## Argument errors and the help/version short-circuit -/

/-- C3. Argument errors abort before any device is touched: when, in the left-to-right
scan of the arguments, no option position is `/h`, `/help`, `/v` or `/version` and some
position holds an unknown option, a value-taking option without a following token, or an
out-of-range value, `parseOpts` returns `-1` and `main` returns `-1` with an empty trace:
no enumeration, no capture handle, no frame read, no file written. -/
theorem argument_error_aborts (env : Env) (argv : List String)
    (hno : OptionPos.helpOrVersion ∉ scanOptions (argv.drop 1))
    (herr : OptionPos.invalid ∈ scanOptions (argv.drop 1)) :
    (parseOpts argv defaults).1 = -1 ∧ main env argv = (-1, []) := by
  have h : (parseOpts argv defaults).1 = -1 := by
    rw [parseOpts_ret]; exact firstDecisive_invalid _ hno herr
  exact ⟨h, by simp [main, h]⟩

/-- Witness of `argument_error_aborts` at the command line `/focus 7`. -/
theorem argument_error_aborts_witness :
    (parseOpts ["CameraGrab.exe", "/focus", "7"] defaults).1 = -1 ∧
      main workingEnv ["CameraGrab.exe", "/focus", "7"] = (-1, []) :=
  argument_error_aborts workingEnv ["CameraGrab.exe", "/focus", "7"] (by decide) (by decide)

/-- C4, as stated, fails: on `/x /h` the option `/h` occurs as an option position, yet
`parseOpts` returns `-1` and `main` returns `-1`, because the unknown option `/x` comes
first. -/
theorem help_after_error_not_short_circuit :
    OptionPos.helpOrVersion ∈ scanOptions (["CameraGrab.exe", "/x", "/h"].drop 1) ∧
      (parseOpts ["CameraGrab.exe", "/x", "/h"] defaults).1 = -1 ∧
      (main workingEnv ["CameraGrab.exe", "/x", "/h"]).1 = -1 := by
  decide

/-- C4, amended. Help/version short-circuit: when `/h`, `/help`, `/v` or `/version` occurs
as an option position and no position before it is invalid, `parseOpts` returns `1` and
`main` returns `0` with an empty trace, whatever follows. -/
theorem help_short_circuit (env : Env) (argv : List String) (pre post : List OptionPos)
    (hscan : scanOptions (argv.drop 1) = pre ++ OptionPos.helpOrVersion :: post)
    (hpre : OptionPos.invalid ∉ pre) :
    (parseOpts argv defaults).1 = 1 ∧ main env argv = (0, []) := by
  have h : (parseOpts argv defaults).1 = 1 := by
    rw [parseOpts_ret, hscan]; exact firstDecisive_help pre post hpre
  exact ⟨h, by simp [main, h]⟩

/-- Witness of `help_short_circuit` at `/l /d 3 /v /x`. -/
theorem help_short_circuit_witness :
    (parseOpts ["CameraGrab.exe", "/l", "/d", "3", "/v", "/x"] defaults).1 = 1 ∧
      main workingEnv ["CameraGrab.exe", "/l", "/d", "3", "/v", "/x"] = (0, []) :=
  help_short_circuit workingEnv ["CameraGrab.exe", "/l", "/d", "3", "/v", "/x"]
    [OptionPos.valid, OptionPos.valid] [OptionPos.invalid] (by decide) (by decide)

/-! ## Format selector -/

/-- C7, as stated, fails: `Jpg` equals `jpg` under case-insensitive comparison, yet the
iteration handling `/F Jpg` sets the result to `-1`, and so does `parseOpts`. -/
theorem format_mixed_case_rejected :
    formatAcceptedIgnoringCase "Jpg" ∧
      (loopBody ["CameraGrab.exe", "/F", "Jpg"] ⟨1, 0, defaults⟩).ret = -1 ∧
      (parseOpts ["CameraGrab.exe", "/F", "Jpg"] defaults).1 = -1 := by
  decide

/-- C7, amended. The format selector is compared exactly: in an iteration that handles
`/F` or `/format` with a following token `v`, entered with `ret = 0`, the result is not
set to `-1` exactly when `v` is one of `bmp`, `BMP`, `jpg`, `JPG`, `png`, `PNG`, and the
extension then selected is the corresponding lower-case `.bmp`, `.jpg` or `.png`. -/
theorem format_selector_exact (argv : List String) (s : ParseState)
    (ha : argv.getD s.n "" = "/F" ∨ argv.getD s.n "" = "/format")
    (c : s.n + 1 < argv.length) (hret : s.ret = 0) :
    ((loopBody argv s).ret ≠ -1 ↔
      argv.getD (s.n + 1) "" ∈ ["bmp", "BMP", "jpg", "JPG", "png", "PNG"]) ∧
    (∀ ext : String, (argv.getD (s.n + 1) "", ext) ∈ formatTable →
      (loopBody argv s).ret = 0 ∧ (loopBody argv s).g.g_extension = ext) := by
  obtain ⟨n, ret, g⟩ := s
  simp only at ha c hret
  subst hret
  have h := loopBody_cases argv n (motive := fun F => ∀ g : Globals,
    ((F 0 g).ret ≠ -1 ↔
      argv.getD (n + 1) "" ∈ ["bmp", "BMP", "jpg", "JPG", "png", "PNG"]) ∧
    (∀ ext : String, (argv.getD (n + 1) "", ext) ∈ formatTable →
      (F 0 g).ret = 0 ∧ (F 0 g).g.g_extension = ext))
  refine h ?help ?missing ?deviceBad ?deviceOk ?output ?focusBad ?focusOk ?formatOk
    ?formatBad ?list ?heightBad ?heightOk ?widthBad ?widthOk ?unknown g
  all_goals clear h
  all_goals generalize argv.getD n "" = a at *
  all_goals generalize argv.getD (n + 1) "" = v at *
  case formatOk =>
    intro _ _ ext hext g
    simp only [formatTable, List.mem_cons, List.mem_singleton, List.not_mem_nil, or_false,
      Prod.mk.injEq] at hext ⊢
    rcases hext with ⟨rfl, rfl⟩ | ⟨rfl, rfl⟩ | ⟨rfl, rfl⟩ | ⟨rfl, rfl⟩ | ⟨rfl, rfl⟩ | ⟨rfl, rfl⟩ <;>
      simp
  case formatBad =>
    intro _ _ hv g
    simp only [formatTable, List.mem_cons, List.mem_singleton, List.not_mem_nil, or_false,
      Prod.mk.injEq] at hv ⊢
    refine ⟨by simp [hv], ?_⟩
    intro ext hext
    exfalso
    tauto
  case missing => intro _ hc; exact absurd c hc
  all_goals
    intro ha'
    exfalso
    rcases ha with ha | ha <;> simp [ha] at ha'

/-- Witness of `format_selector_exact` at the command line `/format PNG`. -/
theorem format_selector_exact_witness :
    (loopBody ["CameraGrab.exe", "/format", "PNG"] ⟨1, 0, defaults⟩).ret = 0 ∧
      (loopBody ["CameraGrab.exe", "/format", "PNG"] ⟨1, 0, defaults⟩).g.g_extension = ".png" :=
  (format_selector_exact ["CameraGrab.exe", "/format", "PNG"] ⟨1, 0, defaults⟩
    (Or.inr (by decide)) (by decide) rfl).2 ".png" (by decide)

/-! ## Invariant, totality, idempotence -/

/-- A property of the loop state kept by every iteration made under the loop condition is
kept by the loop. -/
theorem parseLoop_preserves (argv : List String) (P : ParseState → Prop)
    (hstep : ∀ s : ParseState, s.n < argv.length → s.ret = 0 → P s → P (loopBody argv s)) :
    ∀ (fuel : Nat) (s : ParseState), P s → P (parseLoop argv fuel s) := by
  intro fuel
  induction fuel with
  | zero => intro s h; exact h
  | succ f ih =>
    intro s h
    simp only [parseLoop]
    split_ifs with hc
    · exact ih _ (hstep s hc.1 hc.2 h)
    · exact h

/-- One iteration keeps "`ret = 0` implies the configuration invariant". -/
theorem loopBody_invariant (argv : List String) (s : ParseState) (hret : s.ret = 0)
    (hinv : ConfigInvariant s.g) :
    (loopBody argv s).ret = 0 → ConfigInvariant (loopBody argv s).g := by
  obtain ⟨n, ret, g⟩ := s
  simp only at hret hinv
  subst hret
  have h := loopBody_cases argv n (motive := fun F => ∀ g : Globals, ConfigInvariant g →
    (F 0 g).ret = 0 → ConfigInvariant (F 0 g).g)
  refine h ?help ?missing ?deviceBad ?deviceOk ?output ?focusBad ?focusOk ?formatOk
    ?formatBad ?list ?heightBad ?heightOk ?widthBad ?widthOk ?unknown g hinv
  all_goals clear h hinv
  all_goals generalize argv.getD n "" = a at *
  all_goals generalize argv.getD (n + 1) "" = v at *
  case deviceOk =>
    intro _ _ hv g hg _
    obtain ⟨_, h2, h3, h4, h5⟩ := hg
    exact ⟨by simp only; omega, h2, h3, h4, h5⟩
  case output => intro _ _ g hg _; exact hg
  case focusOk =>
    intro _ _ hv g hg _
    obtain ⟨h1, h2, h3, _, h5⟩ := hg
    exact ⟨h1, h2, h3, (focus_check_iff _).mp hv, h5⟩
  case formatOk =>
    intro _ _ ext hext g hg _
    obtain ⟨h1, h2, h3, h4, _⟩ := hg
    refine ⟨h1, h2, h3, h4, ?_⟩
    simp only [List.mem_cons, List.mem_singleton, List.not_mem_nil, or_false,
      Prod.mk.injEq] at hext ⊢
    tauto
  case list => intro _ g hg _; exact hg
  case heightOk =>
    intro _ _ hv g hg _
    obtain ⟨h1, h2, _, h4, h5⟩ := hg
    exact ⟨h1, h2, by simp only; omega, h4, h5⟩
  case widthOk =>
    intro _ _ hv g hg _
    obtain ⟨h1, _, h3, h4, h5⟩ := hg
    exact ⟨h1, by simp only; omega, h3, h4, h5⟩
  case help => intro _ g _ hr; simp at hr
  case missing => intro _ _ g _ hr; simp at hr
  case deviceBad => intro _ _ _ g _ hr; simp at hr
  case focusBad => intro _ _ _ _ g _ hr; simp at hr
  case formatBad => intro _ _ _ g _ hr; simp at hr
  case heightBad => intro _ _ _ g _ hr; simp at hr
  case widthBad => intro _ _ _ g _ hr; simp at hr
  case unknown => intro _ g _ hr; simp at hr

/-- C8. Configuration invariant after a successful parse: started from the default globals,
if `parseOpts` returns `0` then the configuration it leaves has device `>= 0`, width
`> 0`, height `> 0`, focus `-1` or a multiple of 5 in `[0, 255]`, and extension one
of the empty string, `.bmp`, `.jpg`, `.png`; a command line without arguments yields exactly
the defaults. -/
theorem parseOpts_invariant :
    (∀ (argv : List String) (g : Globals),
      parseOpts argv defaults = (0, g) → ConfigInvariant g) ∧
    (∀ prog : String, parseOpts [prog] defaults = (0, defaults)) ∧
    parseOpts [] defaults = (0, defaults) := by
  refine ⟨?_, fun _ => rfl, rfl⟩
  intro argv g hp
  have key := parseLoop_preserves argv (fun s => s.ret = 0 → ConfigInvariant s.g)
    (fun s _ hret hP => loopBody_invariant argv s hret (hP hret))
    argv.length ⟨1, 0, defaults⟩ (fun _ => by decide)
  unfold parseOpts at hp
  simp only [Prod.mk.injEq] at hp
  rw [← hp.2]
  exact key hp.1

/-- Witness of `parseOpts_invariant` at `/d 2 /W 320 /H 240 /f 40 /F bmp`. -/
theorem parseOpts_invariant_witness :
    ConfigInvariant
      { g_list_dev := false, g_extension := ".bmp", g_output := "output", g_width := 320,
        g_height := 240, g_device := 2, g_focus := 40 } :=
  parseOpts_invariant.1
    ["CameraGrab.exe", "/d", "2", "/W", "320", "/H", "240", "/f", "40", "/F", "bmp"] _
    (by decide)

/-- One iteration, run from the same index and `ret` on two configurations, gives the same
index and `ret`, and keeps the field-by-field agreement of the two configurations. -/
theorem loopBody_agree (argv : List String) (n : Nat) (ret : Int) (g1 g2 a b : Globals)
    (hab : Agree g1 g2 a b) :
    (loopBody argv ⟨n, ret, a⟩).n = (loopBody argv ⟨n, ret, b⟩).n ∧
    (loopBody argv ⟨n, ret, a⟩).ret = (loopBody argv ⟨n, ret, b⟩).ret ∧
    Agree g1 g2 (loopBody argv ⟨n, ret, a⟩).g (loopBody argv ⟨n, ret, b⟩).g := by
  have h := loopBody_cases argv n (motive := fun F => ∀ (ret : Int) (a b : Globals),
    Agree g1 g2 a b →
      (F ret a).n = (F ret b).n ∧ (F ret a).ret = (F ret b).ret ∧
        Agree g1 g2 (F ret a).g (F ret b).g)
  refine h ?help ?missing ?deviceBad ?deviceOk ?output ?focusBad ?focusOk ?formatOk
    ?formatBad ?list ?heightBad ?heightOk ?widthBad ?widthOk ?unknown ret a b hab
  all_goals clear h hab
  case help =>
    intro _ ret a b hab
    obtain ⟨h1, h2, h3, h4, h5, h6, h7⟩ := hab
    refine ⟨rfl, rfl, ?_⟩
    unfold Agree
    exact ⟨h1, h2, h3, h4, h5, h6, h7⟩
  case missing =>
    intro _ _ ret a b hab
    obtain ⟨h1, h2, h3, h4, h5, h6, h7⟩ := hab
    refine ⟨rfl, rfl, ?_⟩
    unfold Agree
    exact ⟨h1, h2, h3, h4, h5, h6, h7⟩
  case deviceBad =>
    intro _ _ _ ret a b hab
    obtain ⟨h1, h2, h3, h4, h5, h6, h7⟩ := hab
    refine ⟨rfl, rfl, ?_⟩
    unfold Agree
    exact ⟨h1, h2, h3, h4, h5, Or.inl rfl, h7⟩
  case deviceOk =>
    intro _ _ _ ret a b hab
    obtain ⟨h1, h2, h3, h4, h5, h6, h7⟩ := hab
    refine ⟨rfl, rfl, ?_⟩
    unfold Agree
    exact ⟨h1, h2, h3, h4, h5, Or.inl rfl, h7⟩
  case output =>
    intro _ _ ret a b hab
    obtain ⟨h1, h2, h3, h4, h5, h6, h7⟩ := hab
    refine ⟨rfl, rfl, ?_⟩
    unfold Agree
    exact ⟨h1, h2, Or.inl rfl, h4, h5, h6, h7⟩
  case focusBad =>
    intro _ _ _ _ ret a b hab
    obtain ⟨h1, h2, h3, h4, h5, h6, h7⟩ := hab
    refine ⟨rfl, rfl, ?_⟩
    unfold Agree
    exact ⟨h1, h2, h3, h4, h5, h6, Or.inl rfl⟩
  case focusOk =>
    intro _ _ _ ret a b hab
    obtain ⟨h1, h2, h3, h4, h5, h6, h7⟩ := hab
    refine ⟨rfl, rfl, ?_⟩
    unfold Agree
    exact ⟨h1, h2, h3, h4, h5, h6, Or.inl rfl⟩
  case formatOk =>
    intro _ _ _ _ ret a b hab
    obtain ⟨h1, h2, h3, h4, h5, h6, h7⟩ := hab
    refine ⟨rfl, rfl, ?_⟩
    unfold Agree
    exact ⟨h1, Or.inl rfl, h3, h4, h5, h6, h7⟩
  case formatBad =>
    intro _ _ _ ret a b hab
    obtain ⟨h1, h2, h3, h4, h5, h6, h7⟩ := hab
    refine ⟨rfl, rfl, ?_⟩
    unfold Agree
    exact ⟨h1, h2, h3, h4, h5, h6, h7⟩
  case list =>
    intro _ ret a b hab
    obtain ⟨h1, h2, h3, h4, h5, h6, h7⟩ := hab
    refine ⟨rfl, rfl, ?_⟩
    unfold Agree
    exact ⟨Or.inl rfl, h2, h3, h4, h5, h6, h7⟩
  case heightBad =>
    intro _ _ _ ret a b hab
    obtain ⟨h1, h2, h3, h4, h5, h6, h7⟩ := hab
    refine ⟨rfl, rfl, ?_⟩
    unfold Agree
    exact ⟨h1, h2, h3, h4, Or.inl rfl, h6, h7⟩
  case heightOk =>
    intro _ _ _ ret a b hab
    obtain ⟨h1, h2, h3, h4, h5, h6, h7⟩ := hab
    refine ⟨rfl, rfl, ?_⟩
    unfold Agree
    exact ⟨h1, h2, h3, h4, Or.inl rfl, h6, h7⟩
  case widthBad =>
    intro _ _ _ ret a b hab
    obtain ⟨h1, h2, h3, h4, h5, h6, h7⟩ := hab
    refine ⟨rfl, rfl, ?_⟩
    unfold Agree
    exact ⟨h1, h2, h3, Or.inl rfl, h5, h6, h7⟩
  case widthOk =>
    intro _ _ _ ret a b hab
    obtain ⟨h1, h2, h3, h4, h5, h6, h7⟩ := hab
    refine ⟨rfl, rfl, ?_⟩
    unfold Agree
    exact ⟨h1, h2, h3, Or.inl rfl, h5, h6, h7⟩
  case unknown =>
    intro _ ret a b hab
    obtain ⟨h1, h2, h3, h4, h5, h6, h7⟩ := hab
    refine ⟨rfl, rfl, ?_⟩
    unfold Agree
    exact ⟨h1, h2, h3, h4, h5, h6, h7⟩

/-- The loop, run from the same index and `ret` on two configurations, ends with the same
index and `ret`, and with configurations that agree field by field. -/
theorem parseLoop_agree (argv : List String) (g1 g2 : Globals) (fuel : Nat) :
    ∀ (n : Nat) (ret : Int) (a b : Globals), Agree g1 g2 a b →
      (parseLoop argv fuel ⟨n, ret, a⟩).n = (parseLoop argv fuel ⟨n, ret, b⟩).n ∧
      (parseLoop argv fuel ⟨n, ret, a⟩).ret = (parseLoop argv fuel ⟨n, ret, b⟩).ret ∧
      Agree g1 g2 (parseLoop argv fuel ⟨n, ret, a⟩).g (parseLoop argv fuel ⟨n, ret, b⟩).g := by
  induction fuel with
  | zero => intro n ret a b hab; exact ⟨rfl, rfl, hab⟩
  | succ f ih =>
    intro n ret a b hab
    simp only [parseLoop]
    by_cases hc : n < argv.length ∧ ret = 0
    · rw [if_pos hc, if_pos hc]
      obtain ⟨hn, hr, hg⟩ := loopBody_agree argv n ret g1 g2 a b hab
      generalize loopBody argv ⟨n, ret, a⟩ = ra at hn hr hg ⊢
      generalize loopBody argv ⟨n, ret, b⟩ = rb at hn hr hg ⊢
      obtain ⟨na, reta, ga⟩ := ra
      obtain ⟨nb, retb, gb⟩ := rb
      simp only at hn hr hg
      subst hn hr
      exact ih na reta ga gb hg
    · rw [if_neg hc, if_neg hc]
      exact ⟨rfl, rfl, hab⟩

/-- C9. Parsing is total and idempotent: every iteration of the loop of `parseOpts`
strictly increases the index; the loop reaches its exit within `argc` iterations, and
more iterations change nothing; the returned code does not depend on the globals the run
starts from; and a second run on the same argument vector, started from the globals left
by the first run from the defaults, returns the same code and leaves the same
configuration. -/
theorem parseOpts_total_idempotent :
    (∀ (argv : List String) (s : ParseState), s.n < (loopBody argv s).n) ∧
    (∀ (argv : List String) (g : Globals),
      ¬ ((parseLoop argv argv.length ⟨1, 0, g⟩).n < argv.length ∧
          (parseLoop argv argv.length ⟨1, 0, g⟩).ret = 0)) ∧
    (∀ (argv : List String) (g : Globals) (k : Nat),
      parseLoop argv (argv.length + k) ⟨1, 0, g⟩ = parseLoop argv argv.length ⟨1, 0, g⟩) ∧
    (∀ (argv : List String) (g1 g2 : Globals),
      (parseOpts argv g1).1 = (parseOpts argv g2).1) ∧
    (∀ argv : List String,
      parseOpts argv (parseOpts argv defaults).2 = parseOpts argv defaults) := by
  refine ⟨loopBody_n_gt, ?_, ?_, ?_, ?_⟩
  · intro argv g
    exact parseLoop_exit argv argv.length ⟨1, 0, g⟩ (by simp only; omega)
  · intro argv g k
    exact parseLoop_fuel argv argv.length k ⟨1, 0, g⟩ (by simp only; omega)
  · intro argv g1 g2
    rw [parseOpts_ret, parseOpts_ret]
  · intro argv
    have hinit : Agree (parseOpts argv defaults).2 defaults (parseOpts argv defaults).2 defaults := by
      unfold Agree; simp
    obtain ⟨_, hr, hg⟩ := parseLoop_agree argv (parseOpts argv defaults).2 defaults
      argv.length 1 0 (parseOpts argv defaults).2 defaults hinit
    have e1 : parseOpts argv defaults =
        ((parseLoop argv argv.length ⟨1, 0, defaults⟩).ret,
          (parseLoop argv argv.length ⟨1, 0, defaults⟩).g) := rfl
    have e2 : parseOpts argv (parseOpts argv defaults).2 =
        ((parseLoop argv argv.length ⟨1, 0, (parseOpts argv defaults).2⟩).ret,
          (parseLoop argv argv.length ⟨1, 0, (parseOpts argv defaults).2⟩).g) := rfl
    rw [e2, hr]
    generalize (parseLoop argv argv.length ⟨1, 0, (parseOpts argv defaults).2⟩).g = f2 at hg ⊢
    rw [e1] at hg ⊢
    generalize (parseLoop argv argv.length ⟨1, 0, defaults⟩).g = f1 at hg ⊢
    generalize (parseLoop argv argv.length ⟨1, 0, defaults⟩).ret = r1
    obtain ⟨h1, h2, h3, h4, h5, h6, h7⟩ := hg
    simp only at h1 h2 h3 h4 h5 h6 h7
    have q1 : f2.g_list_dev = f1.g_list_dev := by rcases h1 with h | ⟨h, _⟩ <;> exact h
    have q2 : f2.g_extension = f1.g_extension := by rcases h2 with h | ⟨h, _⟩ <;> exact h
    have q3 : f2.g_output = f1.g_output := by rcases h3 with h | ⟨h, _⟩ <;> exact h
    have q4 : f2.g_width = f1.g_width := by rcases h4 with h | ⟨h, _⟩ <;> exact h
    have q5 : f2.g_height = f1.g_height := by rcases h5 with h | ⟨h, _⟩ <;> exact h
    have q6 : f2.g_device = f1.g_device := by rcases h6 with h | ⟨h, _⟩ <;> exact h
    have q7 : f2.g_focus = f1.g_focus := by rcases h7 with h | ⟨h, _⟩ <;> exact h
    obtain ⟨a1, a2, a3, a4, a5, a6, a7⟩ := f1
    obtain ⟨b1, b2, b3, b4, b5, b6, b7⟩ := f2
    simp only at q1 q2 q3 q4 q5 q6 q7
    subst q1 q2 q3 q4 q5 q6 q7
    rfl

/-! ## The capture workflow of `main` -/

/-- After a successful parse without `/l`, `main` is its capture branch entered with
`ret = 0`. -/
theorem main_capture (env : Env) (argv : List String) (g : Globals)
    (hp : parseOpts argv defaults = (0, g)) (hl : g.g_list_dev = false) :
    main env argv = captureBranch env 0 g := by
  simp [main, hp, hl]

theorem firstDecisive_range (l : List OptionPos) :
    firstDecisive l = 0 ∨ firstDecisive l = 1 ∨ firstDecisive l = -1 := by
  induction l with
  | nil => exact Or.inl rfl
  | cons p t ih =>
    cases p with
    | helpOrVersion => exact Or.inr (Or.inl rfl)
    | valid => exact ih
    | invalid => exact Or.inr (Or.inr rfl)

theorem writtenFiles_append (t u : List Event) :
    writtenFiles (t ++ u) = writtenFiles t ++ writtenFiles u := by
  induction t with
  | nil => rfl
  | cons e t ih => cases e <;> simp [writtenFiles, ih]

theorem unreleased_append (t u : List Event) :
    ∀ held : List Int, unreleased (t ++ u) held = unreleased u (unreleased t held) := by
  induction t with
  | nil => intro held; rfl
  | cons e t ih => intro held; cases e <;> simp [unreleased, ih]

/-- The listing loop writes no file and leaves no handle open. -/
theorem listing_trace (env : Env) (devices : List (Int × Device)) :
    writtenFiles (devices.flatMap (listBody env)) = [] ∧
      unreleased (devices.flatMap (listBody env)) [] = [] := by
  induction devices with
  | nil => exact ⟨rfl, rfl⟩
  | cons d ds ih =>
    rw [List.flatMap_cons, writtenFiles_append, unreleased_append, ih.1]
    have h1 : writtenFiles (listBody env d) = [] := by
      unfold listBody
      cases env.isOpened d.1 Backend.CAP_ANY <;> simp [writtenFiles]
    have h2 : unreleased (listBody env d) [] = [] := by
      unfold listBody
      cases env.isOpened d.1 Backend.CAP_ANY <;> simp [unreleased]
    rw [h1, h2]
    exact ⟨rfl, ih.2⟩

/-- C6. Configuration step of the capture workflow: on a successfully opened device,
`main` attempts to set the width, then the height, then the focus (the focus only when it
is not `-1`), each attempt made whatever the earlier ones returned; if an attempted
setting fails, `main` returns `-1`, reads no frame and writes no file; if all attempted
settings succeed, it reads exactly one frame. -/
theorem configure_step (env : Env) (argv : List String) (g : Globals)
    (hp : parseOpts argv defaults = (0, g)) (hl : g.g_list_dev = false)
    (ho : env.isOpened g.g_device Backend.CAP_DSHOW = true) :
    setCalls (main env argv).2 =
      [Event.set g.g_device CapProp.CAP_PROP_FRAME_WIDTH g.g_width
         (env.set g.g_device CapProp.CAP_PROP_FRAME_WIDTH g.g_width),
       Event.set g.g_device CapProp.CAP_PROP_FRAME_HEIGHT g.g_height
         (env.set g.g_device CapProp.CAP_PROP_FRAME_HEIGHT g.g_height)] ++
      (if g.g_focus ≠ -1 then
         [Event.set g.g_device CapProp.CAP_PROP_FOCUS g.g_focus
            (env.set g.g_device CapProp.CAP_PROP_FOCUS g.g_focus)]
       else []) ∧
    ((env.set g.g_device CapProp.CAP_PROP_FRAME_WIDTH g.g_width = false ∨
        env.set g.g_device CapProp.CAP_PROP_FRAME_HEIGHT g.g_height = false ∨
        (g.g_focus ≠ -1 ∧ env.set g.g_device CapProp.CAP_PROP_FOCUS g.g_focus = false)) →
      (main env argv).1 = -1 ∧ readCount (main env argv).2 = 0 ∧
        writtenFiles (main env argv).2 = []) ∧
    ((env.set g.g_device CapProp.CAP_PROP_FRAME_WIDTH g.g_width = true ∧
        env.set g.g_device CapProp.CAP_PROP_FRAME_HEIGHT g.g_height = true ∧
        (g.g_focus ≠ -1 → env.set g.g_device CapProp.CAP_PROP_FOCUS g.g_focus = true)) →
      readCount (main env argv).2 = 1) := by
  rw [main_capture env argv g hp hl]
  unfold captureBranch
  simp only [ho]
  cases env.set g.g_device CapProp.CAP_PROP_FRAME_WIDTH g.g_width <;>
  cases env.set g.g_device CapProp.CAP_PROP_FRAME_HEIGHT g.g_height <;>
  cases env.set g.g_device CapProp.CAP_PROP_FOCUS g.g_focus <;>
  cases env.read g.g_device <;>
  cases env.imwrite (g.g_output ++ if g.g_extension ≠ "" then g.g_extension else DEFAULT_EXT) <;>
  by_cases hf : g.g_focus = -1 <;>
  simp [hf, setCalls, readCount, writtenFiles]

/-- Witness of `configure_step`: the height cannot be set, on the command line `/f 5`. -/
theorem configure_step_witness :
    (main noHeightEnv ["CameraGrab.exe", "/f", "5"]).1 = -1 ∧
      readCount (main noHeightEnv ["CameraGrab.exe", "/f", "5"]).2 = 0 ∧
      writtenFiles (main noHeightEnv ["CameraGrab.exe", "/f", "5"]).2 = [] :=
  (configure_step noHeightEnv ["CameraGrab.exe", "/f", "5"] { defaults with g_focus := 5 }
    (by decide) rfl (by decide)).2.1 (Or.inr (Or.inl (by decide)))

theorem valuedOptions_flag (a : String) (rest : List String) (h : ¬ takesValue a) :
    valuedOptions (a :: rest) = valuedOptions rest := by
  cases rest <;> simp [valuedOptions, h]

theorem valuedOptions_value (a v : String) (rest : List String) (h : takesValue a) :
    valuedOptions (a :: v :: rest) = (a, v) :: valuedOptions rest := by
  simp [valuedOptions, h]

theorem valued_other (a v : String) (t : List (String × String)) (b : String)
    (e : Option String)
    (h : a ∈ ["/d", "/device", "/f", "/focus", "/H", "/height", "/W", "/width"]) :
    takesValue a ∧ givenOutput ((a, v) :: t) b = givenOutput t b ∧
      selectedExtension ((a, v) :: t) e = selectedExtension t e := by
  simp only [List.mem_cons, List.mem_singleton, List.not_mem_nil, or_false] at h
  rcases h with h | h | h | h | h | h | h | h <;> subst h <;>
    simp [takesValue, givenOutput, selectedExtension]

theorem valued_output (a v : String) (t : List (String × String)) (b : String)
    (e : Option String) (h : a = "/o" ∨ a = "/output") :
    takesValue a ∧ givenOutput ((a, v) :: t) b = givenOutput t v ∧
      selectedExtension ((a, v) :: t) e = selectedExtension t e := by
  rcases h with rfl | rfl <;> simp [takesValue, givenOutput, selectedExtension]

theorem valued_format (a v : String) (t : List (String × String)) (b : String)
    (e : Option String) (h : a = "/F" ∨ a = "/format") :
    takesValue a ∧ givenOutput ((a, v) :: t) b = givenOutput t b ∧
      selectedExtension ((a, v) :: t) e = selectedExtension t (formatTable.lookup v) := by
  rcases h with rfl | rfl <;> simp [takesValue, givenOutput, selectedExtension]

theorem formatTable_lookup (v ext : String) (h : (v, ext) ∈ formatTable) :
    formatTable.lookup v = some ext ∧ extOption ext = some ext := by
  simp only [formatTable, List.mem_cons, List.mem_singleton, List.not_mem_nil, or_false,
    Prod.mk.injEq] at h
  rcases h with ⟨rfl, rfl⟩ | ⟨rfl, rfl⟩ | ⟨rfl, rfl⟩ | ⟨rfl, rfl⟩ | ⟨rfl, rfl⟩ | ⟨rfl, rfl⟩ <;>
    exact ⟨by decide, by decide⟩

/-- An iteration that leaves `ret = 0` consumes the valued option it handles: what the
remaining command line gives, starting from the globals it leaves, is what the command
line gave before it, starting from the globals it found. -/
theorem valued_loopBody (argv : List String) (n : Nat) (hn : n < argv.length) (g : Globals)
    (hret : (loopBody argv ⟨n, 0, g⟩).ret = 0) :
    givenOutput (valuedOptions (argv.drop n)) g.g_output =
      givenOutput (valuedOptions (argv.drop (loopBody argv ⟨n, 0, g⟩).n))
        (loopBody argv ⟨n, 0, g⟩).g.g_output ∧
    selectedExtension (valuedOptions (argv.drop n)) (extOption g.g_extension) =
      selectedExtension (valuedOptions (argv.drop (loopBody argv ⟨n, 0, g⟩).n))
        (extOption (loopBody argv ⟨n, 0, g⟩).g.g_extension) := by
  have hd0 := drop_eq_getD_cons argv n hn
  have hd1 : n + 1 < argv.length →
      argv.drop (n + 1) = argv.getD (n + 1) "" :: argv.drop (n + 2) :=
    fun h => drop_eq_getD_cons argv (n + 1) h
  have h := loopBody_cases argv n (motive := fun F => ∀ g : Globals, (F 0 g).ret = 0 →
    givenOutput (valuedOptions (argv.drop n)) g.g_output =
      givenOutput (valuedOptions (argv.drop (F 0 g).n)) (F 0 g).g.g_output ∧
    selectedExtension (valuedOptions (argv.drop n)) (extOption g.g_extension) =
      selectedExtension (valuedOptions (argv.drop (F 0 g).n)) (extOption (F 0 g).g.g_extension))
  refine h ?help ?missing ?deviceBad ?deviceOk ?output ?focusBad ?focusOk ?formatOk
    ?formatBad ?list ?heightBad ?heightOk ?widthBad ?widthOk ?unknown g hret
  all_goals clear h hret
  case deviceOk =>
    intro ha c _ g _
    have hs := valued_other (argv.getD n "") (argv.getD (n + 1) "")
      (valuedOptions (argv.drop (n + 2))) g.g_output (extOption g.g_extension)
      (by rcases ha with h | h <;> rw [h] <;> decide)
    rw [hd0, hd1 c, valuedOptions_value _ _ _ hs.1, hs.2.1, hs.2.2]
    exact ⟨rfl, rfl⟩
  case focusOk =>
    intro ha c _ g _
    have hs := valued_other (argv.getD n "") (argv.getD (n + 1) "")
      (valuedOptions (argv.drop (n + 2))) g.g_output (extOption g.g_extension)
      (by rcases ha with h | h <;> rw [h] <;> decide)
    rw [hd0, hd1 c, valuedOptions_value _ _ _ hs.1, hs.2.1, hs.2.2]
    exact ⟨rfl, rfl⟩
  case heightOk =>
    intro ha c _ g _
    have hs := valued_other (argv.getD n "") (argv.getD (n + 1) "")
      (valuedOptions (argv.drop (n + 2))) g.g_output (extOption g.g_extension)
      (by rcases ha with h | h <;> rw [h] <;> decide)
    rw [hd0, hd1 c, valuedOptions_value _ _ _ hs.1, hs.2.1, hs.2.2]
    exact ⟨rfl, rfl⟩
  case widthOk =>
    intro ha c _ g _
    have hs := valued_other (argv.getD n "") (argv.getD (n + 1) "")
      (valuedOptions (argv.drop (n + 2))) g.g_output (extOption g.g_extension)
      (by rcases ha with h | h <;> rw [h] <;> decide)
    rw [hd0, hd1 c, valuedOptions_value _ _ _ hs.1, hs.2.1, hs.2.2]
    exact ⟨rfl, rfl⟩
  case output =>
    intro ha c g _
    have hs := valued_output (argv.getD n "") (argv.getD (n + 1) "")
      (valuedOptions (argv.drop (n + 2))) g.g_output (extOption g.g_extension) ha
    rw [hd0, hd1 c, valuedOptions_value _ _ _ hs.1, hs.2.1, hs.2.2]
    exact ⟨rfl, rfl⟩
  case formatOk =>
    intro ha c ext hext g _
    have hs := valued_format (argv.getD n "") (argv.getD (n + 1) "")
      (valuedOptions (argv.drop (n + 2))) g.g_output (extOption g.g_extension) ha
    have hl := formatTable_lookup _ _ hext
    rw [hd0, hd1 c, valuedOptions_value _ _ _ hs.1, hs.2.1, hs.2.2, hl.1]
    refine ⟨rfl, ?_⟩
    show _ = selectedExtension _ (extOption ext)
    rw [hl.2]
  case list =>
    intro ha g _
    have hnv : ¬ takesValue (argv.getD n "") := by
      rcases ha with h | h <;> rw [h] <;> decide
    rw [hd0, valuedOptions_flag _ _ hnv]
    exact ⟨rfl, rfl⟩
  case help => intro _ g hr; simp at hr
  case missing => intro _ _ g hr; simp at hr
  case deviceBad => intro _ _ _ g hr; simp at hr
  case focusBad => intro _ _ _ _ g hr; simp at hr
  case formatBad => intro _ _ _ g hr; simp at hr
  case heightBad => intro _ _ _ g hr; simp at hr
  case widthBad => intro _ _ _ g hr; simp at hr
  case unknown => intro _ g hr; simp at hr

/-- When the loop ends with `ret = 0`, the output name and the extension it leaves are the
ones the remaining command line gives, starting from the ones the loop found. -/
theorem parseLoop_valued (argv : List String) (fuel : Nat) :
    ∀ (n : Nat) (g : Globals), argv.length ≤ n + fuel →
      (parseLoop argv fuel ⟨n, 0, g⟩).ret = 0 →
      (parseLoop argv fuel ⟨n, 0, g⟩).g.g_output =
        givenOutput (valuedOptions (argv.drop n)) g.g_output ∧
      extOption (parseLoop argv fuel ⟨n, 0, g⟩).g.g_extension =
        selectedExtension (valuedOptions (argv.drop n)) (extOption g.g_extension) := by
  induction fuel with
  | zero =>
    intro n g h _
    rw [List.drop_eq_nil_of_le (by omega)]
    exact ⟨rfl, rfl⟩
  | succ f ih =>
    intro n g h hfin
    by_cases hn : n < argv.length
    · have hstep : parseLoop argv (f + 1) ⟨n, 0, g⟩ =
          parseLoop argv f (loopBody argv ⟨n, 0, g⟩) := by
        simp [parseLoop, hn]
      rw [hstep] at hfin ⊢
      have hgt := loopBody_n_gt argv ⟨n, 0, g⟩
      have hret := loopBody_ret argv n g
      have hval := valued_loopBody argv n hn g
      generalize loopBody argv ⟨n, 0, g⟩ = r at hgt hret hval hfin ⊢
      obtain ⟨rn, rr, rg⟩ := r
      simp only at hgt hret hval hfin ⊢
      rcases hret with h0 | h1 | h2
      · subst h0
        obtain ⟨i1, i2⟩ := ih rn rg (by omega) hfin
        obtain ⟨v1, v2⟩ := hval rfl
        exact ⟨by rw [i1, v1], by rw [i2, v2]⟩
      · subst h1
        rw [parseLoop_done argv f _ (by simp)] at hfin
        simp at hfin
      · subst h2
        rw [parseLoop_done argv f _ (by simp)] at hfin
        simp at hfin
    · rw [parseLoop_done argv _ _ (by simp [hn]), List.drop_eq_nil_of_le (by omega)]
      exact ⟨rfl, rfl⟩

/-- After a successful parse from the defaults, the name `main` derives from the globals
is the filename the specification derives from the command line. -/
theorem parsed_filename (argv : List String) (g : Globals)
    (hp : parseOpts argv defaults = (0, g)) :
    g.g_output = givenOutput (valuedOptions (argv.drop 1)) "output" ∧
    extOption g.g_extension = selectedExtension (valuedOptions (argv.drop 1)) none ∧
    (g.g_output ++ if g.g_extension ≠ "" then g.g_extension else DEFAULT_EXT) =
      derivedFilename (argv.drop 1) := by
  unfold parseOpts at hp
  simp only [Prod.mk.injEq] at hp
  obtain ⟨h1, h2⟩ := parseLoop_valued argv argv.length 1 defaults (by omega) hp.1
  rw [hp.2] at h1 h2
  have h2' : extOption g.g_extension = selectedExtension (valuedOptions (argv.drop 1)) none :=
    h2
  have h1' : g.g_output = givenOutput (valuedOptions (argv.drop 1)) "output" := h1
  refine ⟨h1', h2', ?_⟩
  unfold derivedFilename
  rw [← h1', ← h2']
  unfold extOption
  by_cases he : g.g_extension = "" <;> simp [he, DEFAULT_EXT]

theorem formatTable_lookup_range (v y : String) (h : formatTable.lookup v = some y) :
    y ∈ [".bmp", ".jpg", ".png"] := by
  simp only [formatTable, List.lookup_cons, List.lookup_nil] at h
  repeat' split at h
  all_goals simp_all

/-- A selected extension is one of the three of the format table. -/
theorem selectedExtension_range (vs : List (String × String)) :
    ∀ e : Option String, (∀ x, e = some x → x ∈ [".bmp", ".jpg", ".png"]) →
      ∀ x, selectedExtension vs e = some x → x ∈ [".bmp", ".jpg", ".png"] := by
  induction vs with
  | nil => intro e he x hx; exact he x hx
  | cons p t ih =>
    intro e he x hx
    obtain ⟨a, v⟩ := p
    simp only [selectedExtension] at hx
    split_ifs at hx with hc
    · refine ih _ ?_ x hx
      intro y hy
      exact formatTable_lookup_range v y hy
    · exact ih e he x hx

/-- C2. Filename derivation in the capture path of `main`: after a successful parse, the
output name left in the globals is the value of the last `/o` or `/output` of the command
line, or the default `output` when there is none, and the extension left is the one
selected by the last `/F` or `/format` (`.bmp`, `.jpg` or `.png`), or unset when there is
none; every file name handed to the image writer is that base name followed by the
selected extension when a format was selected and by `.jpg` when none was, the base name
never being inspected, and this name is written when the device opens, is configured and
delivers a frame.  So `/o b` gives `b.jpg`, `/o b /F fmt` gives `b` with the extension
of `fmt`, no argument gives `output.jpg`, `pic` gives `pic.jpg`, `pic` with `/F png`
gives `pic.png`, and `photo.png` gives `photo.png.jpg`. -/
theorem output_filename :
    (∀ (env : Env) (argv : List String) (g : Globals),
      parseOpts argv defaults = (0, g) →
      g.g_output = givenOutput (valuedOptions (argv.drop 1)) "output" ∧
      extOption g.g_extension = selectedExtension (valuedOptions (argv.drop 1)) none ∧
      (∀ e : String, selectedExtension (valuedOptions (argv.drop 1)) none = some e →
        e ∈ [".bmp", ".jpg", ".png"]) ∧
      (g.g_output ++ if g.g_extension ≠ "" then g.g_extension else ".jpg") =
        derivedFilename (argv.drop 1) ∧
      (writtenFiles (main env argv).2 = [] ∨
        writtenFiles (main env argv).2 = [derivedFilename (argv.drop 1)]) ∧
      (g.g_list_dev = false →
        env.isOpened g.g_device Backend.CAP_DSHOW = true →
        env.set g.g_device CapProp.CAP_PROP_FRAME_WIDTH g.g_width = true →
        env.set g.g_device CapProp.CAP_PROP_FRAME_HEIGHT g.g_height = true →
        (g.g_focus ≠ -1 → env.set g.g_device CapProp.CAP_PROP_FOCUS g.g_focus = true) →
        env.read g.g_device = true →
        writtenFiles (main env argv).2 = [derivedFilename (argv.drop 1)])) ∧
    (∀ prog b : String,
      parseOpts [prog, "/o", b] defaults = (0, { defaults with g_output := b }) ∧
      derivedFilename ["/o", b] = b ++ ".jpg" ∧
      derivedFilename ["/output", b] = b ++ ".jpg") ∧
    (∀ prog b fmt ext : String, (fmt, ext) ∈ formatTable →
      ext ≠ "" ∧
      parseOpts [prog, "/o", b, "/F", fmt] defaults =
        (0, { defaults with g_output := b, g_extension := ext }) ∧
      derivedFilename ["/o", b, "/F", fmt] = b ++ ext ∧
      derivedFilename ["/F", fmt] = "output" ++ ext) ∧
    derivedFilename [] = "output.jpg" ∧
    writtenFiles (main workingEnv ["CameraGrab.exe"]).2 = ["output.jpg"] ∧
    writtenFiles (main workingEnv ["CameraGrab.exe", "/o", "pic"]).2 = ["pic.jpg"] ∧
    writtenFiles (main workingEnv ["CameraGrab.exe", "/output", "pic"]).2 = ["pic.jpg"] ∧
    writtenFiles (main workingEnv ["CameraGrab.exe", "/o", "pic", "/d", "0"]).2 =
      ["pic.jpg"] ∧
    writtenFiles (main workingEnv ["CameraGrab.exe", "/o", "pic", "/F", "png"]).2 =
      ["pic.png"] ∧
    writtenFiles (main workingEnv ["CameraGrab.exe", "/o", "photo.png"]).2 =
      ["photo.png.jpg"] := by
  refine ⟨?_, fun _ _ => ⟨rfl, rfl, rfl⟩, ?_, by decide, by decide, by decide, by decide,
    by decide, by decide, by decide⟩
  · intro env argv g hp
    obtain ⟨hout, hext, hname⟩ := parsed_filename argv g hp
    have hname' : (g.g_output ++ if g.g_extension ≠ "" then g.g_extension else ".jpg") =
        derivedFilename (argv.drop 1) := hname
    refine ⟨hout, hext, ?_, hname', ?_⟩
    · exact selectedExtension_range _ none (fun x hx => by simp at hx)
    rw [← hname']
    by_cases hl : g.g_list_dev = false
    · rw [main_capture env argv g hp hl]
      unfold captureBranch
      dsimp only
      cases env.isOpened g.g_device Backend.CAP_DSHOW <;>
      cases env.set g.g_device CapProp.CAP_PROP_FRAME_WIDTH g.g_width <;>
      cases env.set g.g_device CapProp.CAP_PROP_FRAME_HEIGHT g.g_height <;>
      cases env.set g.g_device CapProp.CAP_PROP_FOCUS g.g_focus <;>
      cases env.read g.g_device <;>
      cases env.imwrite (g.g_output ++ if g.g_extension ≠ "" then g.g_extension else DEFAULT_EXT) <;>
      by_cases hf : g.g_focus = -1 <;>
      simp [hf, hl, writtenFiles, DEFAULT_EXT]
    · have hl' : g.g_list_dev = true := by simpa using hl
      have hm : (main env argv).2 =
          Event.enumerate :: env.getVideoDevicesMap.flatMap (listBody env) := by
        simp [main, hp, hl']
      rw [hm]
      refine ⟨Or.inl ?_, fun h => absurd h hl⟩
      simp only [writtenFiles]
      exact (listing_trace env _).1
  · intro prog b fmt ext hmem
    simp only [formatTable, List.mem_cons, List.mem_singleton, List.not_mem_nil, or_false,
      Prod.mk.injEq] at hmem
    rcases hmem with ⟨rfl, rfl⟩ | ⟨rfl, rfl⟩ | ⟨rfl, rfl⟩ | ⟨rfl, rfl⟩ | ⟨rfl, rfl⟩ | ⟨rfl, rfl⟩ <;>
      exact ⟨by decide, rfl, rfl, rfl⟩

/-- Witness of `output_filename` at `/o pic /d 0 /F png` in a working environment. -/
theorem output_filename_witness :
    writtenFiles (main workingEnv ["CameraGrab.exe", "/o", "pic", "/d", "0", "/F", "png"]).2 =
      ["pic.png"] :=
  (output_filename.1 workingEnv ["CameraGrab.exe", "/o", "pic", "/d", "0", "/F", "png"]
    { defaults with g_output := "pic", g_extension := ".png" } (by decide)).2.2.2.2.2
    rfl rfl rfl rfl (fun _ => rfl) rfl

/-- C5: what the code does when the device does not open. In capture mode, when the capture
handle reports that it is not opened, `main` prints the open-failure diagnostic, reads no
frame and writes no file, but returns `0`, not `-1`. -/
theorem open_failure_status (env : Env) (argv : List String) (g : Globals)
    (hp : parseOpts argv defaults = (0, g)) (hl : g.g_list_dev = false)
    (ho : env.isOpened g.g_device Backend.CAP_DSHOW = false) :
    main env argv =
      (0, [Event.newCapture g.g_device Backend.CAP_DSHOW, Event.isOpened g.g_device false,
           Event.printf "Failed to open camera.\r\n" []]) := by
  rw [main_capture env argv g hp hl]
  simp [captureBranch, ho]

/-- Witness of `open_failure_status`: no argument, no device that opens. -/
theorem open_failure_status_witness :
    main closedEnv ["CameraGrab.exe"] =
      (0, [Event.newCapture 0 Backend.CAP_DSHOW, Event.isOpened 0 false,
           Event.printf "Failed to open camera.\r\n" []]) :=
  open_failure_status closedEnv ["CameraGrab.exe"] defaults rfl rfl rfl

/-- C10: what the code does with its capture handles. The handles constructed by `main` and
not deleted when it returns are: the handle of the selected device when, in capture mode,
that device does not open; none on every other path (listing, configuration failure, read
failure, write failure, success).  With no argument and no device that opens, the handle
of device 0 is left undeleted. -/
theorem capture_handle_release :
    (∀ (env : Env) (argv : List String),
      unreleased (main env argv).2 [] =
        if (parseOpts argv defaults).1 = 0 ∧ (parseOpts argv defaults).2.g_list_dev = false ∧
            env.isOpened (parseOpts argv defaults).2.g_device Backend.CAP_DSHOW = false
        then [(parseOpts argv defaults).2.g_device] else []) ∧
    unreleased (main closedEnv ["CameraGrab.exe"]).2 [] = [0] := by
  refine ⟨?_, by decide⟩
  intro env argv
  have hrange : (parseOpts argv defaults).1 = 0 ∨ (parseOpts argv defaults).1 = 1 ∨
      (parseOpts argv defaults).1 = -1 := by
    rw [parseOpts_ret]; exact firstDecisive_range _
  unfold main
  generalize parseOpts argv defaults = p at hrange ⊢
  obtain ⟨ret, g⟩ := p
  simp only at hrange ⊢
  rcases hrange with rfl | rfl | rfl
  · by_cases hl : g.g_list_dev = false
    · simp only [hl]
      unfold captureBranch
      dsimp only
      cases env.isOpened g.g_device Backend.CAP_DSHOW <;>
      cases env.set g.g_device CapProp.CAP_PROP_FRAME_WIDTH g.g_width <;>
      cases env.set g.g_device CapProp.CAP_PROP_FRAME_HEIGHT g.g_height <;>
      cases env.set g.g_device CapProp.CAP_PROP_FOCUS g.g_focus <;>
      cases env.read g.g_device <;>
      cases env.imwrite (g.g_output ++ if g.g_extension ≠ "" then g.g_extension else DEFAULT_EXT) <;>
      by_cases hf : g.g_focus = -1 <;>
      simp [hf, unreleased]
    · have hl' : g.g_list_dev = true := by simpa using hl
      simp [hl', unreleased, (listing_trace env _).2]
  · simp [unreleased]
  · simp [unreleased]

end CameraGrab
